import Mathlib

/-!
Verification of the Zotero Harvester journal harvesting and metadata
conversion pipeline of ub_tools.

The definitions below are a shallow embedding of the C++ sources
`cpp/lib/src/ZoteroHarvesterConversion.cc` and `cpp/lib/src/Zotero.cc`.
Pure functions become Lean functions, stateful code becomes explicit
state passing or a step relation, and fallible code returns
`Except String`.  Helper routines of the repository whose sources are
not part of the source tree under inspection (StringUtil.cc, MARC.cc,
TimeUtil.cc, HtmlUtil.cc, the download tracker and the tasklet
machinery) are modelled from the specification; each such definition
carries a doc comment saying so.  External collaborators (author
lookups, the n-gram language classifier, the date parser) are passed in
as an explicit `Externals` record of functions, mirroring their role as
injected collaborators.
-/

/- ===================== basic string helpers ===================== -/

/-- Modelled from the spec: `StringUtil::LeftTrim(&s, '0')` (StringUtil.cc
is not under the inspected tree) removes all leading occurrences of the
given character; used to strip leading zeros from volume and issue. -/
def leftTrimZeros (s : String) : String :=
  String.mk (s.data.dropWhile (fun c => c = '0'))

/-- Modelled from the spec: `StringUtil::TrimWhite` removes leading and
trailing whitespace. -/
def trimWhite (s : String) : String :=
  String.mk (((s.data.dropWhile Char.isWhitespace).reverse.dropWhile Char.isWhitespace).reverse)

/-- Modelled from the spec: `TextUtil::CollapseAndTrimWhitespace` reduces
every whitespace run to a single blank and trims the ends. -/
def collapseAndTrimWhitespace (s : String) : String :=
  String.intercalate " " ((s.split Char.isWhitespace).filter (fun w => w ≠ ""))

/-- Modelled from the spec: `StringUtil::Split(s, ' ', \&tokens,
suppress_empty_components = true)` yields the nonempty blank-separated
tokens. -/
def splitOnSpace (s : String) : List String :=
  (s.split (fun c => c = ' ')).filter (fun w => w ≠ "")

/-- Modelled from the spec: `StringUtil::ToUpper`, per-character ASCII
uppercasing. -/
def toUpperString (s : String) : String :=
  String.mk (s.data.map Char.toUpper)

/-- Modelled from the spec: `TextUtil::UTF8ToLower`, modelled as ASCII
lowercasing (sufficient for the fixed title/affix vocabularies). -/
def toLowerString (s : String) : String :=
  String.mk (s.data.map Char.toLower)

/-- Modelled from the spec: `HtmlUtil::StripHtmlTags` (HtmlUtil.cc is not
under the inspected tree): "strip markup from every textual field",
modelled as removal of every angle-bracketed span. -/
def stripHtmlTagsAux : List Char → Bool → List Char
  | [], _ => []
  | c :: rest, true => if c = '>' then stripHtmlTagsAux rest false else stripHtmlTagsAux rest true
  | c :: rest, false => if c = '<' then stripHtmlTagsAux rest true else c :: stripHtmlTagsAux rest false

/-- String wrapper for `stripHtmlTagsAux`. -/
def stripHtmlTags (s : String) : String :=
  String.mk (stripHtmlTagsAux s.data false)

/-- One decimal digit character. -/
def natDigitChar (n : Nat) : Char :=
  match n with
  | 0 => '0' | 1 => '1' | 2 => '2' | 3 => '3' | 4 => '4'
  | 5 => '5' | 6 => '6' | 7 => '7' | 8 => '8' | _ => '9'

/-- Decimal digit list (most significant first), with a structural fuel
argument so that the definition computes by reduction; `fuel ≥ n`
suffices since the value shrinks by a factor of ten each step. -/
def natDigitsFuel : Nat → Nat → List Char
  | 0, _ => []
  | fuel + 1, n => if n = 0 then [] else natDigitsFuel fuel (n / 10) ++ [natDigitChar (n % 10)]

/-- Decimal digit list of a positive number (most significant first). -/
def natDigits (n : Nat) : List Char :=
  natDigitsFuel n n

/-- Modelled from the spec: `std::to_string` on an unsigned value. -/
def natToString (n : Nat) : String :=
  if n = 0 then "0" else String.mk (natDigits n)

/-- One hexadecimal digit character (lowercase). -/
def natHexChar (n : Nat) : Char :=
  match n with
  | 0 => '0' | 1 => '1' | 2 => '2' | 3 => '3' | 4 => '4'
  | 5 => '5' | 6 => '6' | 7 => '7' | 8 => '8' | 9 => '9'
  | 10 => 'a' | 11 => 'b' | 12 => 'c' | 13 => 'd' | 14 => 'e' | _ => 'f'

/-- Hexadecimal digit list (most significant first), with a structural
fuel argument so that the definition computes by reduction. -/
def natHexDigitsFuel : Nat → Nat → List Char
  | 0, _ => []
  | fuel + 1, n => if n = 0 then [] else natHexDigitsFuel fuel (n / 16) ++ [natHexChar (n % 16)]

/-- Hexadecimal digit list of a positive number (most significant first). -/
def natHexDigits (n : Nat) : List Char :=
  natHexDigitsFuel n n

/-- Modelled from the spec: `StringUtil::ToHexString` renders a checksum
value in hexadecimal. -/
def toHexString (n : Nat) : String :=
  if n = 0 then "0" else String.mk (natHexDigits n)

/-- Numeric value of a list of decimal digit characters. -/
def digitsToNat (cs : List Char) : Nat :=
  cs.foldl (fun a c => a * 10 + (c.toNat - 48)) 0

/-- `StringUtil::CharCount(s, ' ')`: number of blanks in a string. -/
def charCountSpaces (s : String) : Nat :=
  (s.data.filter (fun c => c = ' ')).length

/-- Modelled from the spec: `StringUtil::ReplaceString(old, rep, s)`
replaces every occurrence of `old` in `s` by `rep` (left to right). -/
def replaceAllAux (pat rep : List Char) : List Char → List Char
  | [] => []
  | c :: rest =>
    if pat ≠ [] ∧ pat.isPrefixOf (c :: rest) then
      rep ++ replaceAllAux pat rep ((c :: rest).drop pat.length)
    else
      c :: replaceAllAux pat rep rest
termination_by l => l.length
decreasing_by
  · simp only [List.length_drop, List.length_cons]
    have hp : 0 < pat.length := List.length_pos.mpr (by tauto)
    omega
  · simp

/-- String wrapper for `replaceAllAux`. -/
def replaceString (pat rep s : String) : String :=
  String.mk (replaceAllAux pat.data rep.data s.data)

/-- Last occurrence of a character: `s.rfind(c)`, returned as the split
(prefix before the occurrence, suffix after it). -/
def splitAtLastChar (c : Char) : List Char → Option (List Char × List Char)
  | [] => none
  | x :: rest =>
    match splitAtLastChar c rest with
    | some (a, b) => some (x :: a, b)
    | none => if x = c then some ([], rest) else none

/-- The split performed by the greedy anchored regex `^(.+)-(.+)$`: the
rightmost hyphen with a nonempty suffix, provided the prefix is also
nonempty.  Mirrors `PAGE_RANGE_MATCHER` of ZoteroHarvesterConversion.cc. -/
def splitLastHyphen : List Char → Option (List Char × List Char)
  | [] => none
  | x :: rest =>
    match splitLastHyphen rest with
    | some (a, b) => some (x :: a, b)
    | none => if x = '-' ∧ rest ≠ [] then some ([], rest) else none

/-- `PAGE_RANGE_MATCHER.match`: both capture groups of `^(.+)-(.+)$`. -/
def pageRangeMatch (s : String) : Option (List Char × List Char) :=
  match splitLastHyphen s.data with
  | some (a, b) => if a ≠ [] then some (a, b) else none
  | none => none

/-- `PAGE_RANGE_DIGIT_MATCHER.match`: both capture groups of
`^(\d+)-(\d+)$`. -/
def pageRangeDigitMatch (s : String) : Option (List Char × List Char) :=
  match splitLastHyphen s.data with
  | some (a, b) =>
    if a ≠ [] ∧ a.all Char.isDigit ∧ b.all Char.isDigit then some (a, b) else none
  | none => none

/- ===================== roman numerals ===================== -/

/-- Remainders after consuming a literal character (regex `c`). -/
def consumeChar (c : Char) : List Char → List (List Char)
  | [] => []
  | x :: rest => if x = c then [rest] else []

/-- Remainders after consuming a literal two-character sequence. -/
def consumeSeq2 (c₁ c₂ : Char) (cs : List Char) : List (List Char) :=
  (consumeChar c₁ cs).bind (consumeChar c₂)

/-- Remainders after consuming between zero and `n` copies of `c`
(regex `c{0,n}`). -/
def repUpTo (c : Char) : Nat → List Char → List (List Char)
  | 0, cs => [cs]
  | n + 1, cs =>
    match cs with
    | [] => [[]]
    | x :: rest => if x = c then (x :: rest) :: repUpTo c n rest else [x :: rest]

/-- Remainders after an optional character (regex `c?`). -/
def optChar (c : Char) (cs : List Char) : List (List Char) :=
  cs :: consumeChar c cs

/-- Regex group `(CM|CD|D?C{0,3})` of `PAGE_ROMAN_NUMERAL_MATCHER`. -/
def romanHundreds (cs : List Char) : List (List Char) :=
  consumeSeq2 'C' 'M' cs ++ consumeSeq2 'C' 'D' cs ++ (optChar 'D' cs).bind (repUpTo 'C' 3)

/-- Regex group `(XC|XL|L?X{0,3})` of `PAGE_ROMAN_NUMERAL_MATCHER`. -/
def romanTens (cs : List Char) : List (List Char) :=
  consumeSeq2 'X' 'C' cs ++ consumeSeq2 'X' 'L' cs ++ (optChar 'L' cs).bind (repUpTo 'X' 3)

/-- Regex group `(IX|IV|V?I{0,3})` of `PAGE_ROMAN_NUMERAL_MATCHER`. -/
def romanUnits (cs : List Char) : List (List Char) :=
  consumeSeq2 'I' 'X' cs ++ consumeSeq2 'I' 'V' cs ++ (optChar 'V' cs).bind (repUpTo 'I' 3)

/-- `PAGE_ROMAN_NUMERAL_MATCHER.match`: the anchored regex
`^M\x7b0,4\x7d(CM|CD|D?C\x7b0,3\x7d)(XC|XL|L?X\x7b0,3\x7d)(IX|IV|V?I\x7b0,3\x7d)$`,
decided by enumerating all decompositions. -/
def isRomanNumeral (cs : List Char) : Bool :=
  ((((repUpTo 'M' 4 cs).bind romanHundreds).bind romanTens).bind romanUnits).contains []

/-- Value of a single roman digit. -/
def romanCharValue (c : Char) : Nat :=
  match c with
  | 'I' => 1 | 'V' => 5 | 'X' => 10 | 'L' => 50
  | 'C' => 100 | 'D' => 500 | 'M' => 1000 | _ => 0

/-- Modelled from the spec: `StringUtil::RomanNumeralToDecimal`
(StringUtil.cc is not under the inspected tree), the standard subtractive
evaluation of a roman numeral. -/
def romanNumeralToDecimal : List Char → Nat
  | [] => 0
  | [c] => romanCharValue c
  | c₁ :: c₂ :: rest =>
    if romanCharValue c₁ < romanCharValue c₂ then
      romanNumeralToDecimal (c₂ :: rest) - romanCharValue c₁
    else
      romanNumeralToDecimal (c₂ :: rest) + romanCharValue c₁

/- ===================== pages normalisation ===================== -/

/-- The pages-normalisation block of `AugmentMetadataRecord`
(ZoteroHarvesterConversion.cc): roman-numeral range conversion on the
uppercased value followed by equal-bound digit-range collapsing. -/
def normalizePages (pages : String) : String :=
  let pages₁ :=
    match pageRangeMatch (toUpperString pages) with
    | some (a, b) =>
      let conv₁ := if isRomanNumeral a then natToString (romanNumeralToDecimal a) else String.mk a
      let conv₂ := if isRomanNumeral b then natToString (romanNumeralToDecimal b) else String.mk b
      let converted := conv₁ ++ "-" ++ conv₂
      if converted ≠ pages then converted else pages
    | none => pages
  match pageRangeDigitMatch pages₁ with
  | some (a, b) => if a = b then String.mk a else pages₁
  | none => pages₁

/- ===================== data model ===================== -/

/-- `MetadataRecord::SuperiorType` of ZoteroHarvesterConversion.h. -/
inductive SuperiorType where
  | INVALID
  | PRINT
  | ONLINE
deriving DecidableEq, Repr

/-- `MetadataRecord::SSGType` of ZoteroHarvesterConversion.h. -/
inductive SSGType where
  | INVALID
  | FG_0
  | FG_1
  | FG_01
  | FG_21
deriving DecidableEq, Repr

/-- `MetadataRecord::Creator` of ZoteroHarvesterConversion.h. -/
structure Creator where
  first_name : String := ""
  last_name : String := ""
  type : String := ""
  affix : String := ""
  title : String := ""
  ppn : String := ""
  gnd_number : String := ""
deriving DecidableEq, Repr

/-- `Conversion::MetadataRecord`: the normalised bibliographic attributes. -/
structure MetadataRecord where
  url : String := ""
  item_type : String := ""
  title : String := ""
  short_title : String := ""
  abstract_note : String := ""
  publication_title : String := ""
  volume : String := ""
  issue : String := ""
  pages : String := ""
  date : String := ""
  doi : String := ""
  language : String := ""
  issn : String := ""
  license : String := ""
  superior_ppn : String := ""
  superior_type : SuperiorType := .INVALID
  ssg : SSGType := .INVALID
  creators : List Creator := []
  keywords : List String := []
  custom_metadata : List (String × String) := []
deriving DecidableEq, Repr

/-- `MetadataRecord::GetSSGTypeFromString` of
ZoteroHarvesterConversion.cc. -/
def GetSSGTypeFromString (ssg_string : String) : SSGType :=
  if ssg_string = "FG_0" then .FG_0
  else if ssg_string = "FG_1" then .FG_1
  else if ssg_string = "FG_0/1" then .FG_01
  else if ssg_string = "FG_2,1" then .FG_21
  else .INVALID

/-- `Zeder::Flavour`: the two institutional instances
(ZoteroHarvesterZederInterop, modelled from the spec since that source is
not under the inspected tree). -/
inductive ZederFlavour where
  | IXTHEO
  | KRIMDOK
deriving DecidableEq, Repr

/-- Modelled from the spec:
`StringUtil::ASCIIToLower(Zeder::FLAVOUR_TO_STRING_MAP.at(flavour))`. -/
def flavourStringLower (f : ZederFlavour) : String :=
  match f with
  | .IXTHEO => "ixtheo"
  | .KRIMDOK => "krimdok"

/-- `Config::GroupParams` (the fields this core reads); the Zeder
instance of the group (`ZederInterop::GetZederInstanceForGroup`) is
carried as a field because its derivation lives outside the inspected
tree. -/
structure GroupParams where
  name : String := ""
  isil : String := ""
  author_swb_lookup_url : String := ""
  author_lobid_lookup_query_params : String := ""
  zeder_flavour : ZederFlavour := .IXTHEO

/-- An online/print pair of identifiers (`Config::JournalParams::issn_`
and `::ppn_`). -/
structure OnlinePrintPair where
  online : String := ""
  print : String := ""
deriving DecidableEq, Repr

/-- `Config::JournalParams::language_params_`. -/
structure LanguageParams where
  expected_languages : List String := []
  source_text_fields : String := ""
  force_automatic_language_detection : Bool := false

/-- `Config::JournalParams::zotero_metadata_params_`: the per-field
suppression and override rules and the metadata exclusion filters; the
compiled regular expressions are carried as boolean matcher functions. -/
structure ZoteroMetadataParams where
  fields_to_suppress : List (String × (String → Bool)) := []
  fields_to_override : List (String × String) := []
  exclusion_filters : List (String × (String → Bool)) := []

/-- `Config::JournalParams::marc_metadata_params_`: custom field
templates, removal filters and MARC-level exclusion filters. -/
structure MarcMetadataParams where
  fields_to_add : List String := []
  fields_to_remove : List (String × (String → Bool)) := []
  exclusion_filters : List (String × (String → Bool)) := []

/-- `Config::JournalParams` (the fields this core reads). -/
structure JournalParams where
  name : String := ""
  zeder_id : Nat := 0
  issn : OnlinePrintPair := {}
  ppn : OnlinePrintPair := {}
  strptime_format : String := ""
  license : String := ""
  ssgn : String := ""
  review_regex : Option (String → Bool) := none
  language_params : LanguageParams := {}
  zotero_metadata_params : ZoteroMetadataParams := {}
  marc_metadata_params : MarcMetadataParams := {}

/-- `Util::HarvestableItem`: one (journal, URL) pair. -/
structure HarvestableItem where
  journal : JournalParams
  url : String

/-- The result of `TimeUtil::StringToStructTm` (a `struct tm`; that
source is not under the inspected tree). -/
structure StructTm where
  tm_year : Nat := 0
  tm_mon : Nat := 0
  tm_mday : Nat := 0

/-- The external collaborators consumed by the conversion pipeline,
passed in as functions: the strptime-style date parser, the two author
identifier lookups, the n-gram language classifier (already reduced to
its top-ranked answer, `top_languages.front()`), the language-code
tables of TranslationUtil, and the blacklist regex built from the author
name blacklist file. -/
structure Externals where
  stringToStructTm : String → String → Except String StructTm
  getAuthorGNDNumberSWB : String → String → String
  getAuthorGNDNumberLobid : String → String → String
  classifyLanguageTop : String → List String → String
  isValidInternational2LetterCode : String → Bool
  isValidGerman3Or4LetterCode : String → Bool
  mapInternational2LetterToGerman3Or4 : String → String
  mapGermanToFake3LetterEnglish : String → String
  replaceBlacklistedTokens : String → String

/- ===================== author-name postprocessing ===================== -/

/-- `SplitIntoFirstAndLastAuthorNames` of ZoteroHarvesterConversion.cc:
split at the last blank of the whitespace-normalised name. -/
def SplitIntoFirstAndLastAuthorNames (author : String) : String × String :=
  let normalised := collapseAndTrimWhitespace author
  match splitAtLastChar ' ' normalised.data with
  | some (a, b) => (String.mk a, String.mk b)
  | none => (normalised, "")

/-- The fixed title vocabulary `VALID_TITLES`. -/
def VALID_TITLES : List String :=
  ["jr", "sr", "sj", "s.j", "s.j.", "fr", "hr", "dr", "prof", "em"]

/-- `IsAuthorNameTokenTitle`: drop one trailing period, lowercase,
and look the token up in the fixed vocabulary. -/
def IsAuthorNameTokenTitle (token : String) : Bool :=
  let token₁ := if token.data.getLast? = some '.' then String.mk token.data.dropLast else token
  VALID_TITLES.contains (toLowerString token₁)

/-- The fixed affix vocabulary `VALID_AFFIXES` (roman numerals I–V). -/
def VALID_AFFIXES : List String :=
  ["i", "ii", "iii", "iv", "v"]

/-- `IsAuthorNameTokenAffix`. -/
def IsAuthorNameTokenAffix (token : String) : Bool :=
  VALID_AFFIXES.contains (toLowerString token)

/-- `StripBlacklistedTokensFromAuthorName`: apply the blacklist regex
replacement to both name parts and trim. -/
def StripBlacklistedTokensFromAuthorName (ext : Externals) (first_name last_name : String) :
    String × String :=
  (trimWhite (ext.replaceBlacklistedTokens first_name),
   trimWhite (ext.replaceBlacklistedTokens last_name))

/-- `PostProcessAuthorName` of ZoteroHarvesterConversion.cc: sort the
blank-separated tokens of both name parts into name/title/affix buffers,
strip blacklisted tokens, and re-split when one side came out empty.
Returns (first name, last name, title, affix). -/
def PostProcessAuthorName (ext : Externals) (first_name last_name : String) :
    String × String × String × String :=
  let tokens₁ := splitOnSpace first_name
  let first_name_buffer := String.intercalate " " (tokens₁.filter (fun t => ¬ IsAuthorNameTokenTitle t))
  let title_buffer₁ := tokens₁.filter (fun t => IsAuthorNameTokenTitle t)
  let tokens₂ := splitOnSpace last_name
  let title_buffer := String.intercalate " " (title_buffer₁ ++ tokens₂.filter (fun t => IsAuthorNameTokenTitle t))
  let affix_buffer := String.intercalate " "
    ((tokens₂.filter (fun t => ¬ IsAuthorNameTokenTitle t)).filter (fun t => IsAuthorNameTokenAffix t))
  let last_name_buffer := String.intercalate " "
    ((tokens₂.filter (fun t => ¬ IsAuthorNameTokenTitle t)).filter (fun t => ¬ IsAuthorNameTokenAffix t))
  let stripped := StripBlacklistedTokensFromAuthorName ext first_name_buffer last_name_buffer
  let fnb := stripped.1
  let lnb := stripped.2
  if fnb = "" then
    let s := SplitIntoFirstAndLastAuthorNames lnb
    (s.1, s.2, title_buffer, affix_buffer)
  else if lnb = "" then
    let s := SplitIntoFirstAndLastAuthorNames fnb
    (s.1, s.2, title_buffer, affix_buffer)
  else
    (fnb, lnb, title_buffer, affix_buffer)

/- ===================== metadata augmentation ===================== -/

/-- `StringUtil::ToString(value, 10, 2, '0')`: zero-pad to two digits. -/
def pad2 (n : Nat) : String :=
  if n < 10 then "0" ++ natToString n else natToString n

/-- The ISSN/PPN selection block of `AugmentMetadataRecord`
(ZoteroHarvesterConversion.cc, "override ISSN (online > print > zotero)
and select superior PPN (online > print)").  The zotero-supplied ISSN is
passed in because it appears in the failure message. -/
def selectIssnAndPpn (zotero_issn : String) (jp : JournalParams) :
    Except String (String × String × SuperiorType) :=
  if jp.issn.online ≠ "" then
    if jp.ppn.online = "" then
      .error ("cannot use online ISSN \"" ++ jp.issn.online ++ "\" because no online PPN is given!")
    else
      .ok (jp.issn.online, jp.ppn.online, .ONLINE)
  else if jp.issn.print ≠ "" then
    if jp.ppn.print = "" then
      .error ("cannot use print ISSN \"" ++ jp.issn.print ++ "\" because no print PPN is given!")
    else
      .ok (jp.issn.print, jp.ppn.print, .PRINT)
  else
    .error ("ISSN and PPN could not be chosen! ISSN online: \"" ++ jp.issn.online ++ "\""
            ++ ", ISSN print: \"" ++ jp.issn.print ++ "\", ISSN zotero: \"" ++ zotero_issn ++ "\""
            ++ ", PPN online: \"" ++ jp.ppn.online ++ "\", PPN print: \"" ++ jp.ppn.print ++ "\"")

/-- The per-creator part of `AugmentMetadataRecord`: post-process the
name and fetch a GND number, first from the SWB lookup, then from the
Lobid lookup. -/
def postProcessCreator (ext : Externals) (gp : GroupParams) (c : Creator) : Creator :=
  let pp := PostProcessAuthorName ext c.first_name c.last_name
  let fn := pp.1
  let ln := pp.2.1
  let ti := pp.2.2.1
  let af := pp.2.2.2
  if ln ≠ "" then
    let combined_name := if fn ≠ "" then ln ++ ", " ++ fn else ln
    let gnd₁ := stripHtmlTags (ext.getAuthorGNDNumberSWB combined_name gp.author_swb_lookup_url)
    let gnd :=
      if gnd₁ ≠ "" then gnd₁
      else stripHtmlTags (ext.getAuthorGNDNumberLobid combined_name gp.author_lobid_lookup_query_params)
    { c with first_name := fn, last_name := ln, title := ti, affix := af, gnd_number := gnd }
  else
    { c with first_name := fn, last_name := ln, title := ti, affix := af }

/-- `IdentifyMissingLanguage` of ZoteroHarvesterConversion.cc. -/
def IdentifyMissingLanguage (ext : Externals) (mr : MetadataRecord) (jp : JournalParams) :
    Except String MetadataRecord :=
  if jp.language_params.expected_languages = [] then
    .ok mr
  else if jp.language_params.expected_languages.length = 1 then
    .ok { mr with language := jp.language_params.expected_languages.headD "" }
  else
    let stf := jp.language_params.source_text_fields
    if stf = "" ∨ stf = "title" then
      let record_text :=
        if charCountSpaces mr.title < 5 then mr.title ++ " " ++ mr.abstract_note else mr.title
      .ok { mr with language := ext.classifyLanguageTop record_text jp.language_params.expected_languages }
    else if stf = "abstract" then
      .ok { mr with language := ext.classifyLanguageTop mr.abstract_note jp.language_params.expected_languages }
    else if stf = "title+abstract" then
      .ok { mr with language := ext.classifyLanguageTop (mr.title ++ " " ++ mr.abstract_note)
                                  jp.language_params.expected_languages }
    else
      .error ("unknown text field '" ++ stf ++ "' for language detection")

/-- The language block of `AugmentMetadataRecord`: decide whether to
auto-detect, otherwise map known codes to the canonical internal code. -/
def resolveLanguage (ext : Externals) (mr : MetadataRecord) (jp : JournalParams) :
    Except String MetadataRecord :=
  let autodetect :=
    jp.language_params.force_automatic_language_detection
    ∨ mr.language = ""
    ∨ (¬ ext.isValidInternational2LetterCode mr.language
       ∧ ¬ ext.isValidGerman3Or4LetterCode mr.language)
  if autodetect then
    IdentifyMissingLanguage ext mr jp
  else
    let l₁ :=
      if ext.isValidInternational2LetterCode mr.language then
        ext.mapInternational2LetterToGerman3Or4 mr.language
      else mr.language
    let l₂ := if ext.isValidGerman3Or4LetterCode l₁ then ext.mapGermanToFake3LetterEnglish l₁ else l₁
    .ok { mr with language := l₂ }

/-- The review-tagging block of `AugmentMetadataRecord`: set the item
type to "review" when the title, the short title or any keyword matches
the journal's review pattern. -/
def tagReviews (mr : MetadataRecord) (jp : JournalParams) : MetadataRecord :=
  match jp.review_regex with
  | none => mr
  | some matcher =>
    if matcher mr.title then { mr with item_type := "review" }
    else if matcher mr.short_title then { mr with item_type := "review" }
    else if mr.keywords.any matcher then { mr with item_type := "review" }
    else mr

/-- `AugmentMetadataRecord` of ZoteroHarvesterConversion.cc: date
normalisation, volume/issue/page normalisation, publication-title
override, ISSN/PPN selection, creator post-processing, language
resolution, license/SSG fill-in and review tagging, in source order. -/
def AugmentMetadataRecord (ext : Externals) (mr₀ : MetadataRecord) (jp : JournalParams)
    (gp : GroupParams) : Except String MetadataRecord := do
  let mr ←
    if mr₀.date ≠ "" then do
      let tm ← ext.stringToStructTm mr₀.date jp.strptime_format
      pure { mr₀ with date := natToString (tm.tm_year + 1900) ++ "-" ++ pad2 (tm.tm_mon + 1)
                              ++ "-" ++ pad2 tm.tm_mday }
    else
      pure mr₀
  let mr := { mr with issue := leftTrimZeros mr.issue, volume := leftTrimZeros mr.volume }
  let mr := { mr with pages := normalizePages mr.pages }
  let mr := { mr with publication_title := jp.name }
  let sel ← selectIssnAndPpn mr.issn jp
  let mr := { mr with issn := sel.1, superior_ppn := sel.2.1, superior_type := sel.2.2 }
  let mr := { mr with creators := mr.creators.map (postProcessCreator ext gp) }
  let mr ← resolveLanguage ext mr jp
  let mr := { mr with license := if jp.license = "LF" then jp.license else mr.license }
  let mr := { mr with ssg := GetSSGTypeFromString jp.ssgn }
  pure (tagReviews mr jp)

/- ===================== translation-server items ===================== -/

/-- A creator object of a translation-server item (the string leaves the
pipeline reads). -/
structure ZCreator where
  firstName : String := ""
  lastName : String := ""
  creatorType : String := ""
deriving DecidableEq, Repr

/-- One object of the translation-server response array: the item type,
the "note" leaf (meaningful for note objects), the remaining top-level
string leaves as a name/value list, the creators array, the tag values
of the tags array and the note values of the (folded) notes array. -/
structure ZoteroItem where
  itemType : String := ""
  note : String := ""
  otherFields : List (String × String) := []
  creators : List ZCreator := []
  tags : List String := []
  notes : List String := []
deriving DecidableEq, Repr

/-- `getOptionalStringValue`: value of a named top-level string leaf,
empty when absent. -/
def getItemField (item : ZoteroItem) (name : String) : String :=
  match item.otherFields.find? (fun p => p.1 = name) with
  | some p => p.2
  | none => ""

/-- Append one note to the `notes` array of the last entry of the
accumulated array (`last_entry->getArrayNode("notes")->push_back`). -/
def appendNoteToLast (acc : List ZoteroItem) (n : String) : List ZoteroItem :=
  match acc with
  | [] => []
  | [m] => [{ m with notes := m.notes ++ [n] }]
  | m :: rest => m :: appendNoteToLast rest n

/-- The note-folding loop shared by `PreprocessHarvesterResponse`
(Zotero.cc) and the first phase of `PostprocessTranslationServerResponse`
(ZoteroHarvesterConversion.cc): note objects are appended to the notes
array of the most recently emitted main entry; every main entry is
emitted with a fresh notes array; a note with no preceding main entry is
a fatal error. -/
def foldNotesLoop : List ZoteroItem → List ZoteroItem → Except String (List ZoteroItem)
  | [], acc => .ok acc
  | e :: rest, acc =>
    if e.itemType = "note" then
      if acc = [] then .error "unexpected note object in translation server response!"
      else foldNotesLoop rest (appendNoteToLast acc e.note)
    else
      foldNotesLoop rest (acc ++ [{ e with notes := [] }])

/-- `PreprocessHarvesterResponse` of Zotero.cc (also the first phase of
`PostprocessTranslationServerResponse`): fold sibling note objects into
their parents. -/
def PreprocessHarvesterResponse (response : List ZoteroItem) : Except String (List ZoteroItem) :=
  foldNotesLoop response []

/-- Declarative counterpart of the note folding, following the spec's
words: each note object is folded into the notes array of the
immediately preceding non-note object, non-note objects keep their
relative order, and a note before any non-note object is an error. -/
def foldNotesGroupedSpec : List ZoteroItem → Except String (List ZoteroItem)
  | [] => .ok []
  | e :: rest =>
    if e.itemType = "note" then
      .error "unexpected note object in translation server response!"
    else
      match foldNotesGroupedSpec (rest.dropWhile (fun x => x.itemType = "note")) with
      | .ok out =>
        .ok ({ e with notes := (rest.takeWhile (fun x => x.itemType = "note")).map (fun x => x.note) } :: out)
      | .error msg => .error msg
termination_by l => l.length
decreasing_by
  simp only [List.length_cons]
  exact Nat.lt_succ_of_le (List.dropWhile_sublist _).length_le

/-- First matching rule of a per-field-name rule table (`std::map::find`;
keys are unique). -/
def findRule (rules : List (String × (String → Bool))) (name : String) : Option (String → Bool) :=
  (rules.find? (fun p => p.1 = name)).map (fun p => p.2)

/-- First matching override pattern of the per-field override table. -/
def findOverride (rules : List (String × String)) (name : String) : Option String :=
  (rules.find? (fun p => p.1 = name)).map (fun p => p.2)

/-- The string leaves of an item as visited by `JSON::VisitLeafNodes`,
with their node names. -/
def itemLeaves (item : ZoteroItem) : List (String × String) :=
  ("itemType", item.itemType)
    :: item.otherFields
    ++ item.creators.bind (fun c =>
         [("firstName", c.firstName), ("lastName", c.lastName), ("creatorType", c.creatorType)])
    ++ item.tags.map (fun t => ("tag", t))
    ++ item.notes.map (fun n => ("note", n))

/-- `SuppressJsonMetadata` applied to one leaf: blank the value when a
suppression rule for the node name matches it. -/
def suppressLeaf (jp : JournalParams) (name value : String) : String :=
  match findRule jp.zotero_metadata_params.fields_to_suppress name with
  | some matcher => if matcher value then "" else value
  | none => value

/-- `OverrideJsonMetadata` applied to one leaf: replace the literal
token `%org%` of the override pattern by the current value. -/
def overrideLeaf (jp : JournalParams) (name value : String) : String :=
  match findOverride jp.zotero_metadata_params.fields_to_override name with
  | some pattern => replaceString "%org%" value pattern
  | none => value

/-- Apply a per-leaf value transformation to every string leaf of an
item, preserving its structure (the shape of `JSON::VisitLeafNodes`). -/
def mapItemLeaves (f : String → String → String) (item : ZoteroItem) : ZoteroItem :=
  { item with
    itemType := f "itemType" item.itemType
    otherFields := item.otherFields.map (fun p => (p.1, f p.1 p.2))
    creators := item.creators.map (fun c =>
      { firstName := f "firstName" c.firstName, lastName := f "lastName" c.lastName,
        creatorType := f "creatorType" c.creatorType })
    tags := item.tags.map (f "tag")
    notes := item.notes.map (f "note") }

/-- `PostprocessTranslationServerResponse` of
ZoteroHarvesterConversion.cc: fold the sibling note objects, then run
the suppression pass and the override pass over every leaf of every
entry. -/
def PostprocessTranslationServerResponse (jp : JournalParams) (response : List ZoteroItem) :
    Except String (List ZoteroItem) := do
  let folded ← foldNotesLoop response []
  pure (folded.map (fun item =>
    mapItemLeaves (overrideLeaf jp) (mapItemLeaves (suppressLeaf jp) item)))

/-- `ZoteroItemMatchesExclusionFilters` of ZoteroHarvesterConversion.cc:
some leaf matches the exclusion filter registered for its node name. -/
def ZoteroItemMatchesExclusionFilters (download_item : HarvestableItem) (item : ZoteroItem) : Bool :=
  if download_item.journal.zotero_metadata_params.exclusion_filters.isEmpty then false
  else
    (itemLeaves item).any (fun leaf =>
      match findRule download_item.journal.zotero_metadata_params.exclusion_filters leaf.1 with
      | some matcher => matcher leaf.2
      | none => false)

/-- Split a note at its first colon (`note.find(':')`). -/
def splitAtFirstColon : List Char → Option (List Char × List Char)
  | [] => none
  | c :: rest =>
    if c = ':' then some ([], rest)
    else
      match splitAtFirstColon rest with
      | some (a, b) => some (c :: a, b)
      | none => none

/-- Insert-or-overwrite into an association list (`std::map` key
assignment). -/
def insertKeyValue (l : List (String × String)) (k v : String) : List (String × String) :=
  if l.any (fun p => p.1 = k) then
    l.map (fun p => if p.1 = k then (k, v) else p)
  else
    l ++ [(k, v)]

/-- The notes-to-custom-metadata loop of
`ConvertZoteroItemToMetadataRecord`: a note of the form `key:value` is
stored as custom metadata, a note without a colon is skipped with a
warning. -/
def collectCustomMetadata (notes : List String) : List (String × String) :=
  notes.foldl
    (fun acc note =>
      if note = "" then acc
      else
        match splitAtFirstColon note.data with
        | some (k, v) => insertKeyValue acc (String.mk k) (String.mk v)
        | none => acc)
    []

/-- `ConvertZoteroItemToMetadataRecord` of ZoteroHarvesterConversion.cc:
copy the HTML-stripped string leaves, the creators, the nonempty tags
and the colon-separated custom metadata into a fresh MetadataRecord. -/
def ConvertZoteroItemToMetadataRecord (item : ZoteroItem) : MetadataRecord :=
  let publication_title₀ := stripHtmlTags (getItemField item "publicationTitle")
  { item_type := stripHtmlTags item.itemType
    title := stripHtmlTags (getItemField item "title")
    short_title := stripHtmlTags (getItemField item "shortTitle")
    abstract_note := stripHtmlTags (getItemField item "abstractNote")
    publication_title :=
      if publication_title₀ = "" then stripHtmlTags (getItemField item "websiteTitle")
      else publication_title₀
    volume := stripHtmlTags (getItemField item "volume")
    issue := stripHtmlTags (getItemField item "issue")
    pages := stripHtmlTags (getItemField item "pages")
    date := stripHtmlTags (getItemField item "date")
    doi := stripHtmlTags (getItemField item "DOI")
    language := stripHtmlTags (getItemField item "language")
    url := stripHtmlTags (getItemField item "url")
    issn := stripHtmlTags (getItemField item "ISSN")
    creators := item.creators.map (fun c =>
      { first_name := stripHtmlTags c.firstName, last_name := stripHtmlTags c.lastName,
        type := stripHtmlTags c.creatorType })
    keywords := (item.tags.map stripHtmlTags).filter (fun t => t ≠ "")
    custom_metadata := collectCustomMetadata item.notes }

/- ===================== MARC records ===================== -/

/-- One field of a `MARC::Record`: the three-character tag plus the raw
field contents (for data fields the two indicators followed by
\x1f-separated subfields, exactly as `getContents` exposes them). -/
structure MarcField where
  tag : String
  contents : String
deriving DecidableEq, Repr

/-- Serialise a subfield list into raw data-field contents. -/
def mkSubfieldContents (subfields : List (Char × String)) : String :=
  String.join (subfields.map (fun p => "\x1f" ++ String.mk [p.1] ++ p.2))

/-- Build a data field from tag, indicators and subfields, as
`MARC::Record::insertField(tag, subfields, indicator1, indicator2)`
serialises them. -/
def mkDataField (tag : String) (ind1 ind2 : Char) (subfields : List (Char × String)) : MarcField :=
  { tag := tag, contents := String.mk [ind1, ind2] ++ mkSubfieldContents subfields }

/-- Build a control field. -/
def mkControlField (tag data : String) : MarcField :=
  { tag := tag, contents := data }

/-- Byte-wise lexicographic strict order on tags, the
`std::string operator<` the C++ insertion compares with (MARC tags are
ASCII, so byte order and codepoint order agree). -/
def tagLtb : List Char → List Char → Bool
  | [], [] => false
  | [], _ :: _ => true
  | _ :: _, [] => false
  | c :: cs, d :: ds =>
    if c.toNat < d.toNat then true
    else if d.toNat < c.toNat then false
    else tagLtb cs ds

/-- `MARC::Record::insertField` inserts at the first possible position
that keeps the fields ordered by tag (a new field precedes existing
fields with the same tag, which is why the source inserts same-tag runs
in reverse order). -/
def insertField : List MarcField → MarcField → List MarcField
  | [], f => [f]
  | g :: rest, f =>
    if tagLtb g.tag.data f.tag.data then g :: insertField rest f else f :: g :: rest

/-- Split raw contents at every \x1f separator. -/
def splitSubfieldPieces : List Char → List (List Char) → List (List Char)
  | [], acc => acc.reverse
  | c :: rest, acc =>
    if c = '\x1f' then splitSubfieldPieces rest ([] :: acc)
    else
      match acc with
      | [] => splitSubfieldPieces rest [[c]]
      | piece :: tail => splitSubfieldPieces rest ((piece ++ [c]) :: tail)

/-- The subfields of a data field, parsed back out of the raw contents
(code character followed by the value, after each \x1f). -/
def subfieldsOf (f : MarcField) : List (Char × String) :=
  ((splitSubfieldPieces (f.contents.data.drop 2) []).filterMap
    (fun piece =>
      match piece with
      | [] => none
      | c :: v => some (c, String.mk v)))

/-- `MARC::Record::Field::hasSubfield`. -/
def hasSubfield (f : MarcField) (code : Char) : Bool :=
  (subfieldsOf f).any (fun p => p.1 = code)

/-- `MARC::Record::Field::getFirstSubfieldWithCode`. -/
def getFirstSubfieldWithCode (f : MarcField) (code : Char) : String :=
  match (subfieldsOf f).find? (fun p => p.1 = code) with
  | some p => p.2
  | none => ""

/-- The per-field predicate realised by `GetMatchedMARCFields`
(ZoteroHarvesterConversion.cc): the field carries the filter's tag, and
the matcher matches the named first subfield when a subfield code is
given and present, the whole contents otherwise. -/
def fieldMatchesFilter (tag_and_code : String) (matcher : String → Bool) (f : MarcField) : Bool :=
  f.tag = tag_and_code.take 3
  ∧ (if tag_and_code.length = 4 ∧ hasSubfield f (tag_and_code.data.getD 3 ' ') then
       matcher (getFirstSubfieldWithCode f (tag_and_code.data.getD 3 ' '))
     else
       matcher f.contents)

/-- The field-removal pass of `GenerateMarcRecordFromMetadataRecord`:
for every removal filter, erase every matched field. -/
def applyRemovalFilters (jp : JournalParams) (record : List MarcField) : List MarcField :=
  jp.marc_metadata_params.fields_to_remove.foldl
    (fun rec filter₀ => rec.filter (fun f => ¬ fieldMatchesFilter filter₀.1 filter₀.2 f))
    record

/-- `MarcRecordMatchesExclusionFilters` of ZoteroHarvesterConversion.cc. -/
def MarcRecordMatchesExclusionFilters (download_item : HarvestableItem)
    (record : List MarcField) : Bool :=
  download_item.journal.marc_metadata_params.exclusion_filters.any
    (fun filter₀ => record.any (fun f => fieldMatchesFilter filter₀.1 filter₀.2 f))

/-- `EXCLUDED_FIELDS_DURING_CHECKSUM_CALC` of
ZoteroHarvesterConversion.cc. -/
def EXCLUDED_FIELDS_DURING_CHECKSUM_CALC : List String :=
  ["001", "URL", "ZID", "JOU"]

/-- Serialise a record for checksumming. -/
def serializeRecord (record : List MarcField) : String :=
  String.join (record.map (fun f => f.tag ++ f.contents ++ "\x1e"))

/-- Modelled from the spec: `MARC::CalcChecksum(record, excluded_fields)`
(MARC.cc is not under the inspected tree), "a hash over all fields
except run-specific bookkeeping fields", modelled as a polynomial hash
of the serialisation of the non-excluded fields. -/
def CalcChecksum (excluded : List String) (record : List MarcField) : Nat :=
  ((serializeRecord (record.filter (fun f => ¬ excluded.contains f.tag))).data.foldl
    (fun h c => (h * 131 + c.toNat) % 18446744073709551616) 5381)

/-- `CalculateMarcRecordHash` of ZoteroHarvesterConversion.cc. -/
def CalculateMarcRecordHash (record : List MarcField) : String :=
  toHexString (CalcChecksum EXCLUDED_FIELDS_DURING_CHECKSUM_CALC record)

/-- `CREATOR_TYPES_TO_MARC21_MAP` of ZoteroHarvesterConversion.cc. -/
def CREATOR_TYPES_TO_MARC21_MAP : List (String × String) :=
  [("artist", "art"), ("attorneyAgent", "csl"), ("author", "aut"), ("bookAuthor", "edc"),
   ("cartographer", "ctg"), ("castMember", "act"), ("commenter", "cwt"), ("composer", "cmp"),
   ("contributor", "ctb"), ("cosponsor", "spn"), ("director", "drt"), ("editor", "edt"),
   ("guest", "pan"), ("interviewee", "ive"), ("inventor", "inv"), ("performer", "prf"),
   ("podcaster", "brd"), ("presenter", "pre"), ("producer", "pro"), ("programmer", "prg"),
   ("recipient", "rcp"), ("reviewedAuthor", "aut"), ("scriptwriter", "aus"),
   ("seriesEditor", "edt"), ("sponsor", "spn"), ("translator", "trl"), ("wordsBy", "wam")]

/-- The creator loop of `GenerateMarcRecordFromMetadataRecord`, yielding
the 100/700 (and 887) fields in insertion order.  The list is the
reversed creator list and `n` the `num_creators_left` countdown, so the
last processed creator (the first in original order) receives the 100
field. -/
def creatorMarcFields : List Creator → Nat → Except String (List MarcField)
  | [], _ => .ok []
  | c :: rest, n => do
    let ppn_subfields := if c.ppn ≠ "" then [('0', "(DE-627)" ++ c.ppn)] else []
    let gnd_subfields := if c.gnd_number ≠ "" then [('0', "(DE-588)" ++ c.gnd_number)] else []
    let type_subfields ←
      if c.type ≠ "" then
        match findOverride CREATOR_TYPES_TO_MARC21_MAP c.type with
        | some marc21 => Except.ok [('4', marc21)]
        | none => Except.error ("zotero creator type '" ++ c.type ++ "' could not be mapped to MARC21")
      else Except.ok []
    let subfields :=
      ppn_subfields ++ gnd_subfields ++ type_subfields
        ++ [('a', c.last_name ++ ", " ++ c.first_name)]
        ++ (if c.affix ≠ "" then [('b', c.affix ++ ".")] else [])
        ++ (if c.title ≠ "" then [('c', c.title)] else [])
        ++ [('e', "VerfasserIn")]
    let creator_field := mkDataField (if n = 1 then "100" else "700") '1' ' ' subfields
    let _887_fields :=
      if c.ppn ≠ "" ∨ c.gnd_number ≠ "" then
        [mkDataField "887" ' ' ' '
          [('a', "Autor in der Zoterovorlage [" ++ c.last_name ++ ", " ++ c.first_name
                 ++ "] maschinell zugeordnet"),
           ('2', "ixzom")]]
      else []
    let rest_fields ← creatorMarcFields rest (n - 1)
    pure ([creator_field] ++ _887_fields ++ rest_fields)

/-- Modelled from the spec: `TimeUtil::StringToYear` (TimeUtil.cc is not
under the inspected tree) extracts the four-digit year leading a date
string, failing otherwise. -/
def stringToYear (s : String) : Option Nat :=
  let ds := s.data.take 4
  if ds.length = 4 ∧ ds.all Char.isDigit then some (digitsToNat ds) else none

/-- Modelled from the spec: `MARC::GetIndexField` (MARC.cc is not under
the inspected tree) builds a keyword index field carrying the keyword in
subfield `a`. -/
def getIndexField (keyword : String) : MarcField :=
  mkDataField "650" ' ' '4' [('a', keyword)]

/-- The harvest-time inputs of record generation:
`TimeUtil::GetCurrentDateAndTime("%Y-%m-%d")` and
`TimeUtil::GetCurrentYear()`. -/
structure HarvestTime where
  currentDate : String := ""
  currentYear : String := ""

/-- The 084 subfields of the SSG switch. -/
def ssgSubfields (ssg : SSGType) : List (Char × String) :=
  match ssg with
  | .FG_0 => [('a', "0")]
  | .FG_1 => [('a', "1")]
  | .FG_01 => [('a', "0"), ('a', "1")]
  | .FG_21 => [('a', "2,1")]
  | .INVALID => []

/-- The fields of `GenerateMarcRecordFromMetadataRecord` inserted after
the title check and before the bookkeeping fields, in source insertion
order (245, 041, 520, 362, 264, 856, 024, 655, 936, 773, keyword index
fields, 084, 935 block, 852). -/
def mainMarcFields (mr : MetadataRecord) (gp : GroupParams) (year : String) : List MarcField :=
  [mkDataField "245" '0' '0' [('a', mr.title)]]
  ++ (if mr.language ≠ "" then [mkDataField "041" ' ' ' ' [('a', mr.language)]] else [])
  ++ (if mr.abstract_note ≠ "" then [mkDataField "520" ' ' ' ' [('a', mr.abstract_note)]] else [])
  ++ (if mr.date ≠ "" ∧ mr.item_type ≠ "journalArticle" ∧ mr.item_type ≠ "review" then
        [mkDataField "362" ' ' ' ' [('a', mr.date)]]
      else [])
  ++ [mkDataField "264" ' ' ' ' [('c', year)]]
  ++ (if mr.url ≠ "" then
        [mkDataField "856" '4' '0'
          ([('u', mr.url)] ++ (if mr.license ≠ "" then [('z', mr.license)] else []))]
      else [])
  ++ (if mr.doi ≠ "" then
        [mkDataField "024" '7' ' ' [('a', mr.doi), ('2', "doi")]]
        ++ (if "https://doi.org/" ++ mr.doi ≠ mr.url then
              [mkDataField "856" '4' '0'
                ([('u', "https://doi.org/" ++ mr.doi)]
                 ++ (if mr.license ≠ "" then [('z', mr.license)] else []))]
            else [])
      else [])
  ++ (if mr.item_type = "review" then
        [mkDataField "655" ' ' '7'
          [('a', "Rezension"), ('0', "(DE-588)4049712-4"), ('0', "(DE-627)106186019"),
           ('2', "gnd-content")]]
      else [])
  ++ (let _936_subfields :=
        (if mr.volume ≠ "" then
           [('d', mr.volume)] ++ (if mr.issue ≠ "" then [('e', mr.issue)] else [])
         else if mr.issue ≠ "" then [('d', mr.issue)] else [])
        ++ (if mr.pages ≠ "" then [('h', mr.pages)] else [])
        ++ [('j', year)]
      if _936_subfields ≠ [] then [mkDataField "936" 'u' 'w' _936_subfields] else [])
  ++ (let _773_subfields_iaxw :=
        (if mr.publication_title ≠ "" then [('i', "In: "), ('t', mr.publication_title)] else [])
        ++ (if mr.issn ≠ "" then [('x', mr.issn)] else [])
        ++ (if mr.superior_ppn ≠ "" then [('w', "(DE-627)" ++ mr.superior_ppn)] else [])
      let g_subfields :=
        if mr.volume ≠ "" then
          [('g', mr.volume ++ " (" ++ year ++ ")"
                 ++ (if mr.issue ≠ "" then ", " ++ mr.issue else "")
                 ++ (if mr.pages ≠ "" then ", Seite " ++ mr.pages else ""))]
        else []
      if _773_subfields_iaxw ≠ [] ∧ g_subfields ≠ [] then
        [mkDataField "773" '0' '8' (_773_subfields_iaxw ++ g_subfields)]
      else
        [mkDataField "773" ' ' ' ' (_773_subfields_iaxw ++ g_subfields)])
  ++ mr.keywords.map (fun kw => getIndexField (collapseAndTrimWhitespace kw))
  ++ (if mr.ssg ≠ SSGType.INVALID then
        [mkDataField "084" ' ' ' ' (ssgSubfields mr.ssg ++ [('2', "ssgn")])]
      else [])
  ++ [mkDataField "935" ' ' ' ' [('a', "zota"), ('2', "LOK")]]
  ++ (match gp.zeder_flavour with
      | .IXTHEO =>
        [mkDataField "935" ' ' ' ' [('a', "ixzs"), ('2', "LOK")],
         mkDataField "935" ' ' ' ' [('a', "mteo")]]
      | .KRIMDOK => [mkDataField "935" ' ' ' ' [('a', "mkri")]])
  ++ [mkDataField "852" ' ' ' ' [('a', gp.isil)]]

/-- The bookkeeping fields URL, ZID and JOU. -/
def bookkeepingMarcFields (download_item : HarvestableItem) (gp : GroupParams) : List MarcField :=
  [mkDataField "URL" ' ' ' ' [('a', download_item.url)],
   mkDataField "ZID" ' ' ' '
     [('a', natToString download_item.journal.zeder_id),
      ('b', flavourStringLower gp.zeder_flavour)],
   mkDataField "JOU" ' ' ' ' [('a', download_item.journal.name)]]

/-- The greedy unanchored match of `%(.+)%`
(`CUSTOM_MARC_FIELD_PLACEHOLDER_MATCHER`): from the first percent sign to
the last, provided at least one character lies between them.  Returns
(matched text, capture group). -/
def placeholderMatch (s : String) : Option (String × String) :=
  match s.data.findIdx? (fun c => c = '%') with
  | none => none
  | some i =>
    match splitAtLastChar '%' s.data with
    | none => none
    | some (a, _) =>
      let j := a.length
      if i + 1 < j then
        some (String.mk ((s.data.drop i).take (j - i + 1)),
              String.mk ((s.data.drop (i + 1)).take (j - i - 1)))
      else none

/-- `InsertCustomMarcFields` of ZoteroHarvesterConversion.cc, yielding
the custom fields in insertion order: placeholder templates are
instantiated from the record's custom metadata (a template with an
unresolved placeholder is skipped), then the field is length-checked and
split into tag and contents. -/
def customMarcFieldsList (mr : MetadataRecord) (jp : JournalParams) :
    Except String (List MarcField) :=
  jp.marc_metadata_params.fields_to_add.foldlM
    (fun acc custom_field₀ => do
      let resolved ←
        match placeholderMatch custom_field₀ with
        | some (full, placeholder) =>
          match (mr.custom_metadata.find? (fun p => p.1 = placeholder)).map (fun p => p.2) with
          | some substitution => Except.ok (some (replaceString full substitution custom_field₀))
          | none => Except.ok none
        | none => Except.ok (some custom_field₀)
      match resolved with
      | none => pure acc
      | some custom_field =>
        if custom_field.length < 3 then
          Except.error ("custom field '" ++ custom_field₀ ++ "' is too short")
        else
          let tag := custom_field.take 3
          let is_control := tag.take 2 = "00"
          if (is_control ∧ custom_field.length < 3 + 1)
             ∨ (¬ is_control ∧ custom_field.length < 3 + 5) then
            Except.error ("custom field '" ++ custom_field₀ ++ "' is too short")
          else
            pure (acc ++ [{ tag := tag, contents := custom_field.drop 3 }]))
    []

/-- `GenerateMarcRecordFromMetadataRecord` of
ZoteroHarvesterConversion.cc: build all fields in source insertion
order, apply the removal filters, compute the content hash over the
non-bookkeeping fields and finally insert the 001 field
`groupName#currentDate#hash`.  Returns the record and the hash. -/
def GenerateMarcRecordFromMetadataRecord (download_item : HarvestableItem)
    (mr : MetadataRecord) (gp : GroupParams) (t : HarvestTime) :
    Except String (List MarcField × String) := do
  let year :=
    match stringToYear mr.date with
    | some y => natToString y
    | none => t.currentYear
  let control_fields :=
    [mkControlField "003" gp.isil,
     mkControlField "007" (if mr.superior_type = SuperiorType.ONLINE then "cr|||||" else "tu")]
  let creator_fields ← creatorMarcFields mr.creators.reverse mr.creators.length
  let rda_field := mkDataField "040" ' ' ' '
    [('a', "DE-627"), ('b', "ger"), ('c', "DE-627"), ('e', "rda")]
  if mr.title = "" then
    Except.error ("no title provided for download item from URL " ++ download_item.url)
  else do
    let custom_fields ← customMarcFieldsList mr download_item.journal
    let all_fields :=
      control_fields ++ creator_fields ++ [rda_field]
      ++ mainMarcFields mr gp year
      ++ bookkeepingMarcFields download_item gp
      ++ custom_fields
    let record := all_fields.foldl insertField []
    let record := applyRemovalFilters download_item.journal record
    let hash := CalculateMarcRecordHash record
    pure (insertField record
            (mkControlField "001" (gp.name ++ "#" ++ t.currentDate ++ "#" ++ hash)),
          hash)

/- ===================== skip policies and the conversion loop ===================== -/

/-- `Conversion::ConversionParams` (the fields the tasklet reads). -/
structure ConversionParams where
  download_item : HarvestableItem
  group_params : GroupParams
  skip_online_first_articles_unconditonally : Bool := false

/-- `VALID_ITEM_TYPES_FOR_ONLINE_FIRST` of ZoteroHarvesterConversion.cc. -/
def VALID_ITEM_TYPES_FOR_ONLINE_FIRST : List String :=
  ["journalArticle", "magazineArticle", "review"]

/-- `ExcludeOnlineFirstRecord` of ZoteroHarvesterConversion.cc. -/
def ExcludeOnlineFirstRecord (mr : MetadataRecord) (parameters : ConversionParams) : Bool :=
  if ¬ VALID_ITEM_TYPES_FOR_ONLINE_FIRST.contains mr.item_type then false
  else if mr.issue = "" ∧ mr.volume = "" then
    if parameters.skip_online_first_articles_unconditonally then true
    else if mr.doi = "" then true
    else false
  else false

/-- `ExcludeEarlyViewRecord` of ZoteroHarvesterConversion.cc. -/
def ExcludeEarlyViewRecord (mr : MetadataRecord) (_parameters : ConversionParams) : Bool :=
  if ¬ VALID_ITEM_TYPES_FOR_ONLINE_FIRST.contains mr.item_type then false
  else if mr.issue = "n/a" ∨ mr.volume = "n/a" then true
  else false

/-- `Conversion::ConversionResult` plus the warnings emitted by the
per-item catch handler of `ConversionTasklet::run`. -/
structure ConversionResult where
  marc_records : List (List MarcField) := []
  num_skipped_since_exclusion_filters : Nat := 0
  num_skipped_since_online_first : Nat := 0
  num_skipped_since_early_view : Nat := 0
  caught_errors : List String := []

/-- The body of the per-item `try` block of `ConversionTasklet::run`:
exclusion filters, conversion, augmentation, URL check, online-first and
early-view policies, record generation and MARC-level exclusion
filters. -/
def processOneItemCore (ext : Externals) (t : HarvestTime) (parameters : ConversionParams)
    (item : ZoteroItem) (result : ConversionResult) : Except String ConversionResult := do
  if ZoteroItemMatchesExclusionFilters parameters.download_item item then
    pure { result with num_skipped_since_exclusion_filters :=
                         result.num_skipped_since_exclusion_filters + 1 }
  else do
    let mr := ConvertZoteroItemToMetadataRecord item
    let mr ← AugmentMetadataRecord ext mr parameters.download_item.journal parameters.group_params
    if mr.url = "" then
      Except.error "no URL set"
    else if ExcludeOnlineFirstRecord mr parameters then
      pure { result with num_skipped_since_online_first := result.num_skipped_since_online_first + 1 }
    else if ExcludeEarlyViewRecord mr parameters then
      pure { result with num_skipped_since_early_view := result.num_skipped_since_early_view + 1 }
    else do
      let generated ← GenerateMarcRecordFromMetadataRecord parameters.download_item mr
                        parameters.group_params t
      if MarcRecordMatchesExclusionFilters parameters.download_item generated.1 then
        pure { result with num_skipped_since_exclusion_filters :=
                             result.num_skipped_since_exclusion_filters + 1 }
      else
        pure { result with marc_records := result.marc_records ++ [generated.1] }

/-- One iteration of the item loop of `ConversionTasklet::run`: an
exception thrown while processing a single item is caught in the
per-item scope and logged as a warning. -/
def processOneItem (ext : Externals) (t : HarvestTime) (parameters : ConversionParams)
    (item : ZoteroItem) (result : ConversionResult) : ConversionResult :=
  match processOneItemCore ext t parameters item result with
  | .ok result₁ => result₁
  | .error e => { result with caught_errors := result.caught_errors ++ ["couldn't convert record: " ++ e] }

/-- The item loop of `ConversionTasklet::run`: every entry of the
post-processed response array is processed in order; a failed item never
aborts its siblings. -/
def runItems (ext : Externals) (t : HarvestTime) (parameters : ConversionParams) :
    List ZoteroItem → ConversionResult → ConversionResult
  | [], result => result
  | item :: rest, result => runItems ext t parameters rest (processOneItem ext t parameters item result)

/-- `ConversionTasklet::run` from the point where the response array is
available: post-process the translation-server response (a parse failure
or an empty array yields an empty result) and run the item loop. -/
def conversionTaskletRun (ext : Externals) (t : HarvestTime) (parameters : ConversionParams)
    (response : List ZoteroItem) : ConversionResult :=
  match PostprocessTranslationServerResponse parameters.download_item.journal response with
  | .error _ => {}
  | .ok entries => runItems ext t parameters entries {}

/- ===================== delivery tracking (Zotero.cc) ===================== -/

/-- `BSZUpload::DeliveryMode` (its header is not under the inspected
tree; the spec names the three delivery modes). -/
inductive DeliveryMode where
  | NONE
  | TEST
  | LIVE
deriving DecidableEq, Repr

/-- `DownloadTracker::Entry`, modelled from the spec ("(delivery mode,
URL, checksum, journal name, optional error message)"; the tracker
source is not under the inspected tree). -/
structure TrackerEntry where
  delivery_mode : DeliveryMode
  url : String
  checksum : String
  journal_name : String
  error_message : String
deriving DecidableEq, Repr

/-- Modelled from the spec: `DownloadTracker::hasAlreadyBeenDownloaded`
looks up the entry stored for a (delivery mode, URL, checksum) triple. -/
def hasAlreadyBeenDownloaded (tracker : List TrackerEntry) (mode : DeliveryMode)
    (url checksum : String) : Option TrackerEntry :=
  tracker.find? (fun e => e.delivery_mode = mode ∧ e.url = url ∧ e.checksum = checksum)

/-- Modelled from the spec: `DownloadTracker::addOrReplace` stores an
entry for the triple with replace semantics. -/
def addOrReplace (tracker : List TrackerEntry) (mode : DeliveryMode)
    (url journal_name checksum error_message : String) : List TrackerEntry :=
  (tracker.filter (fun e => ¬ (e.delivery_mode = mode ∧ e.url = url ∧ e.checksum = checksum)))
    ++ [{ delivery_mode := mode, url := url, checksum := checksum,
          journal_name := journal_name, error_message := error_message }]

/-- The item parameters `HandleTrackingAndWriteRecord` reads. -/
structure TrackingItemParams where
  url : String := ""
  journal_name : String := ""
  harvest_url : String := ""

/-- The shared mutable state of the MARC format handler: the download
tracker and the records written to the output sink. -/
structure DeliveryState where
  tracker : List TrackerEntry := []
  written : List (List MarcField) := []

/-- `MarcFormatHandler::HandleTrackingAndWriteRecord` of Zotero.cc:
resolve the tracking URL (item URL, else harvest URL, else a fatal
error), then either write unconditionally (tracking disabled) or write
and record the delivery only when no entry for the (mode, url, checksum)
triple without an error message exists; otherwise bump the
previously-downloaded counter.  Returns the new state and counter. -/
def HandleTrackingAndWriteRecord (new_record : List MarcField) (disable_tracking : Bool)
    (delivery_mode : DeliveryMode) (item_params : TrackingItemParams)
    (st : DeliveryState) (previously_downloaded_count : Nat) :
    Except String (DeliveryState × Nat) := do
  let checksum := toHexString (CalcChecksum [] new_record)
  let url ←
    if item_params.url = "" then
      if item_params.harvest_url ≠ "" then pure item_params.harvest_url
      else Except.error "\"url\" has not been set!"
    else pure item_params.url
  if disable_tracking then
    pure ({ st with written := st.written ++ [new_record] }, previously_downloaded_count)
  else
    match hasAlreadyBeenDownloaded st.tracker delivery_mode url checksum with
    | some tracked_entry =>
      if tracked_entry.error_message ≠ "" then
        pure ({ tracker := addOrReplace st.tracker delivery_mode url item_params.journal_name checksum "",
                written := st.written ++ [new_record] },
              previously_downloaded_count)
      else
        pure (st, previously_downloaded_count + 1)
    | none =>
      pure ({ tracker := addOrReplace st.tracker delivery_mode url item_params.journal_name checksum "",
              written := st.written ++ [new_record] },
            previously_downloaded_count)

/- ===================== conversion manager (bounded concurrency) ===================== -/

/-- The scheduling state of `Conversion::ConversionManager`: the
execution counter (`conversion_tasklet_execution_counter_`), the queued
tasklets and the active tasklets, with tasklets named by identifiers. -/
structure ConversionManagerState where
  execution_counter : Nat := 0
  queue : List Nat := []
  active : List Nat := []
deriving DecidableEq, Repr

/-- The dequeue loop of `ConversionManager::processQueue`: while the
queue is nonempty and the execution counter is below the bound, move the
front tasklet to the active list and start it (starting a tasklet
increments the execution counter, modelled from the spec's tasklet
contract; the tasklet sources are not under the inspected tree). -/
def processQueueLoop (max_tasklets : Nat) :
    List Nat → Nat → List Nat → ConversionManagerState
  | [], counter, active => { execution_counter := counter, queue := [], active := active }
  | t :: rest, counter, active =>
    if counter < max_tasklets then
      processQueueLoop max_tasklets rest (counter + 1) (active ++ [t])
    else
      { execution_counter := counter, queue := t :: rest, active := active }

/-- `ConversionManager::processQueue` of ZoteroHarvesterConversion.cc:
return immediately when the execution counter has reached
`MAX_CONVERSION_TASKLETS`, otherwise run the dequeue loop. -/
def processQueue (max_tasklets : Nat) (s : ConversionManagerState) : ConversionManagerState :=
  if s.execution_counter = max_tasklets then s
  else processQueueLoop max_tasklets s.queue s.execution_counter s.active

/-- The events of the conversion manager: `convert` enqueues a tasklet,
the background thread runs `processQueue`, and a finishing tasklet
releases its slot (decrementing the counter) and is reaped. -/
inductive ConversionManagerStep (max_tasklets : Nat) :
    ConversionManagerState → ConversionManagerState → Prop where
  | submit (s : ConversionManagerState) (t : Nat) :
    ConversionManagerStep max_tasklets s { s with queue := s.queue ++ [t] }
  | schedule (s : ConversionManagerState) :
    ConversionManagerStep max_tasklets s (processQueue max_tasklets s)
  | finish (s : ConversionManagerState) (t : Nat) (h : t ∈ s.active) :
    ConversionManagerStep max_tasklets s
      { s with execution_counter := s.execution_counter - 1, active := s.active.erase t }

/-- The states a conversion manager can reach from start-up. -/
inductive ConversionManagerReachable (max_tasklets : Nat) : ConversionManagerState → Prop where
  | init : ConversionManagerReachable max_tasklets {}
  | step (s s' : ConversionManagerState) :
    ConversionManagerReachable max_tasklets s → ConversionManagerStep max_tasklets s s' →
    ConversionManagerReachable max_tasklets s'

/- ===================== harvest orchestration (Zotero.cc) ===================== -/

/-- One response of `TranslationServer::Web`: success flag, response
body, HTTP status code and error message. -/
structure WebResponse where
  succeeded : Bool := true
  body : String := ""
  code : Nat := 200
  error_message : String := ""

/-- The error categories the download phase of `Zotero::Harvest` logs. -/
inductive HarvestDownloadError where
  | ZTS_CONVERSION_FAILED (msg : String)
  | DOWNLOAD_MULTIPLE_FAILED (msg : String)
deriving DecidableEq, Repr

/-- The download phase of `Zotero::Harvest` (Zotero.cc): one `Web` call
with the harvest URL as payload; on success with status 300 exactly one
further `Web` call with the returned body as payload, whose outcome is
final regardless of its own status.  Returns the list of payloads
submitted to the translation server and the final outcome. -/
def harvestDownloadPhase (harvest_url : String) (response₁ response₂ : WebResponse) :
    List String × Except HarvestDownloadError String :=
  let calls := [harvest_url]
  if ¬ response₁.succeeded then
    (calls, .error (.ZTS_CONVERSION_FAILED response₁.error_message))
  else if response₁.code = 300 then
    let calls := calls ++ [response₁.body]
    if ¬ response₂.succeeded then
      (calls, .error (.DOWNLOAD_MULTIPLE_FAILED response₂.error_message))
    else
      (calls, .ok response₂.body)
  else
    (calls, .ok response₁.body)

/-- The run-wide state of `Zotero::Harvest`: the static
`already_harvested_urls` set together with the chronological list of
URLs submitted to the translation service. -/
structure OrchestratorState where
  already_harvested_urls : List String := []
  submitted_urls : List String := []
deriving DecidableEq, Repr

/-- One call of `Zotero::Harvest` described by its URL, the journal's
optional extraction regex and the outcome of the rest of the function
(download, conversion and tracking) abstracted as the returned
(record count, previously downloaded count) pair. -/
structure HarvestCall where
  harvest_url : String
  extraction_regex : Option (String → Bool) := none
  downstream : String → Nat × Nat := fun _ => (0, 0)

/-- The guard section of `Zotero::Harvest` (Zotero.cc): return zero
counts when the URL was already harvested this run or fails the
extraction regex; otherwise record the URL as harvested, submit it to
the translation service, and return the downstream counts. -/
def harvestAttempt (s : OrchestratorState) (call : HarvestCall) :
    OrchestratorState × (Nat × Nat) :=
  if call.harvest_url ∈ s.already_harvested_urls then
    (s, (0, 0))
  else if
    (match call.extraction_regex with
     | some matcher => ¬ matcher call.harvest_url
     | none => false : Bool)
  then
    (s, (0, 0))
  else
    ({ already_harvested_urls := s.already_harvested_urls ++ [call.harvest_url],
       submitted_urls := s.submitted_urls ++ [call.harvest_url] },
     call.downstream call.harvest_url)

/-- A whole harvest run: fold `harvestAttempt` over a sequence of calls. -/
def runHarvestAttempts (s : OrchestratorState) : List HarvestCall → OrchestratorState
  | [] => s
  | call :: rest => runHarvestAttempts (harvestAttempt s call).1 rest

/- ===================== derived observations and fixtures ===================== -/

/-- The write condition of `HandleTrackingAndWriteRecord` negated: an
entry for the (mode, url, checksum) triple without a recorded error
message exists in the tracker. -/
def hasCleanEntry (tracker : List TrackerEntry) (mode : DeliveryMode) (url checksum : String) : Bool :=
  match hasAlreadyBeenDownloaded tracker mode url checksum with
  | some e => e.error_message = ""
  | none => false

/-- The content hash of a record-generation outcome (none on failure). -/
def generationHash (r : Except String (List MarcField × String)) : Option String :=
  r.toOption.map Prod.snd

/-- A concrete instantiation of the external collaborators, used by the
witnesses. -/
def extFix : Externals where
  stringToStructTm := fun _ _ => .ok { tm_year := 120, tm_mon := 4, tm_mday := 6 }
  getAuthorGNDNumberSWB := fun _ _ => ""
  getAuthorGNDNumberLobid := fun _ _ => ""
  classifyLanguageTop := fun _ langs => langs.headD ""
  isValidInternational2LetterCode := fun s => s == "en" || s == "de"
  isValidGerman3Or4LetterCode := fun s => s == "eng" || s == "ger"
  mapInternational2LetterToGerman3Or4 := fun s => if s == "en" then "eng" else if s == "de" then "ger" else s
  mapGermanToFake3LetterEnglish := fun s => s
  replaceBlacklistedTokens := fun s => s

/-- A journal fixture with a complete online ISSN/PPN pair. -/
def jpFix : JournalParams :=
  { name := "Journal of Examples", zeder_id := 42,
    issn := { online := "1234-5678", print := "8765-4321" },
    ppn := { online := "PPN1", print := "PPN2" } }

/-- A journal fixture with an online ISSN but no online PPN. -/
def jpFixNoPpn : JournalParams :=
  { name := "Journal of Examples", zeder_id := 42,
    issn := { online := "1234-5678" }, ppn := {} }

/-- A group fixture. -/
def gpFix : GroupParams :=
  { name := "IxTheo", isil := "DE-Tue135", zeder_flavour := .IXTHEO }

/-- A download-item fixture. -/
def diFix : HarvestableItem :=
  { journal := jpFix, url := "https://example.org/article" }

/-- A metadata-record fixture with a title and no date. -/
def mrFixNoDate : MetadataRecord :=
  { title := "Some Title" }

/-- A metadata-record fixture with a parsable date. -/
def mrFixDated : MetadataRecord :=
  { title := "Some Title", date := "2020-01-01" }

/-- A translation-server item fixture whose url leaf is empty. -/
def itemFixNoUrl : ZoteroItem :=
  { itemType := "journalArticle", otherFields := [("title", "Some Title")] }

/-- The conversion-parameters fixture built over the fixtures above. -/
def paramsFix : ConversionParams :=
  { download_item := diFix, group_params := gpFix }

/-- The metadata record the fixture item augments to. -/
def mrFixAugmented : MetadataRecord :=
  match AugmentMetadataRecord extFix (ConvertZoteroItemToMetadataRecord itemFixNoUrl) jpFix gpFix with
  | .ok mr => mr
  | .error _ => {}

/- =====================================================================
Theorems.
===================================================================== -/

/-- C10: the online-first and early-view suppression policies apply only
to items of type journalArticle, magazineArticle or review; an
online-first item is skipped exactly when both volume and issue are
empty and either the unconditional-skip flag is set or the DOI is empty;
an early-view item is skipped exactly when its volume or issue is the
literal "n/a"; every other item passes both policies. -/
theorem online_first_and_early_view_policies (mr : MetadataRecord) (p : ConversionParams) :
    (ExcludeOnlineFirstRecord mr p = true ↔
      ((mr.item_type = "journalArticle" ∨ mr.item_type = "magazineArticle" ∨ mr.item_type = "review")
       ∧ mr.volume = "" ∧ mr.issue = ""
       ∧ (p.skip_online_first_articles_unconditonally = true ∨ mr.doi = "")))
    ∧ (ExcludeEarlyViewRecord mr p = true ↔
      ((mr.item_type = "journalArticle" ∨ mr.item_type = "magazineArticle" ∨ mr.item_type = "review")
       ∧ (mr.issue = "n/a" ∨ mr.volume = "n/a"))) := by
  constructor
  · simp only [ExcludeOnlineFirstRecord, VALID_ITEM_TYPES_FOR_ONLINE_FIRST, List.elem_iff,
      List.mem_cons, List.mem_singleton, List.not_mem_nil, or_false, decide_eq_true_eq]
    split
    · simp_all
    · split
      · split
        · simp_all; tauto
        · split <;> simp_all <;> tauto
      · simp_all; tauto
  · simp only [ExcludeEarlyViewRecord, VALID_ITEM_TYPES_FOR_ONLINE_FIRST, List.elem_iff,
      List.mem_cons, List.mem_singleton, List.not_mem_nil, or_false, decide_eq_true_eq]
    split
    · simp_all
    · split <;> simp_all <;> tauto

/-- C5: a harvest attempt whose first Web call succeeds with HTTP status
300 issues exactly one further Web call, with the returned body as its
payload, and no additional resubmission regardless of the second
response's status; a first response with any other status (or a failed
first call) issues no resubmission. -/
theorem harvest_300_resubmits_once (harvest_url : String) (r₁ r₂ r₂' : WebResponse) :
    (r₁.succeeded = true → r₁.code = 300 →
      (harvestDownloadPhase harvest_url r₁ r₂).1 = [harvest_url, r₁.body]
      ∧ (harvestDownloadPhase harvest_url r₁ r₂).1 = (harvestDownloadPhase harvest_url r₁ r₂').1)
    ∧ ((r₁.succeeded = false ∨ r₁.code ≠ 300) →
      (harvestDownloadPhase harvest_url r₁ r₂).1 = [harvest_url]) := by
  constructor
  · intro hsucc hcode
    constructor
    · simp [harvestDownloadPhase, hsucc, hcode]
      split <;> rfl
    · simp [harvestDownloadPhase, hsucc, hcode]
      split <;> split <;> rfl
  · intro h
    rcases h with h | h
    · simp [harvestDownloadPhase, h]
    · simp [harvestDownloadPhase, h]
      split <;> rfl

/-- Witness for `harvest_300_resubmits_once` at a concrete
multiple-matches response. -/
theorem harvest_300_resubmits_once_witness :
    (harvestDownloadPhase "https://example.org/a"
      { succeeded := true, body := "resultbody", code := 300 }
      { succeeded := true, body := "other", code := 200 }).1
      = ["https://example.org/a", "resultbody"] :=
  ((harvest_300_resubmits_once "https://example.org/a"
      { succeeded := true, body := "resultbody", code := 300 }
      { succeeded := true, body := "other", code := 200 }
      { succeeded := false, body := "", code := 500 }).1 rfl rfl).1

/-- The dequeue loop never pushes the execution counter past the bound. -/
theorem processQueueLoop_counter_le (max_tasklets : Nat) :
    ∀ (queue : List Nat) (counter : Nat) (active : List Nat), counter ≤ max_tasklets →
      (processQueueLoop max_tasklets queue counter active).execution_counter ≤ max_tasklets := by
  intro queue
  induction queue with
  | nil => intro counter active h; simpa [processQueueLoop] using h
  | cons t rest ih =>
    intro counter active h
    simp only [processQueueLoop]
    split
    · exact ih (counter + 1) (active ++ [t]) (by omega)
    · simpa using h

/-- `processQueue` never pushes the execution counter past the bound. -/
theorem processQueue_counter_le (max_tasklets : Nat) (s : ConversionManagerState)
    (h : s.execution_counter ≤ max_tasklets) :
    (processQueue max_tasklets s).execution_counter ≤ max_tasklets := by
  unfold processQueue
  split
  · exact h
  · exact processQueueLoop_counter_le max_tasklets s.queue s.execution_counter s.active h

/-- C4: at every reachable state of the conversion manager, the number
of concurrently executing conversion tasklets never exceeds the fixed
maximum: the scheduling loop only starts a queued tasklet while the
execution counter is below that bound. -/
theorem conversion_manager_bounded_concurrency (max_tasklets : Nat)
    (s : ConversionManagerState) (h : ConversionManagerReachable max_tasklets s) :
    s.execution_counter ≤ max_tasklets := by
  induction h with
  | init => exact Nat.zero_le _
  | step s s' _hreach hstep ih =>
    cases hstep with
    | submit t => exact ih
    | schedule => exact processQueue_counter_le max_tasklets s ih
    | finish t _hmem => exact le_trans (Nat.sub_le _ _) ih

/-- Witness for `conversion_manager_bounded_concurrency`: the state
reached by submitting one tasklet and scheduling it under a bound of
one. -/
theorem conversion_manager_bounded_concurrency_witness :
    (processQueue 1 { queue := [0] } : ConversionManagerState).execution_counter ≤ 1 :=
  conversion_manager_bounded_concurrency 1 _
    (.step _ _ (.step _ _ .init (.submit {} 0)) (.schedule _))

/-- A harvest attempt preserves the invariant that the submitted URLs
are pairwise distinct and all recorded in the already-harvested set. -/
theorem harvestAttempt_preserves_invariant (s : OrchestratorState) (call : HarvestCall)
    (h₁ : s.submitted_urls.Nodup)
    (h₂ : ∀ u ∈ s.submitted_urls, u ∈ s.already_harvested_urls) :
    ((harvestAttempt s call).1.submitted_urls.Nodup
     ∧ ∀ u ∈ (harvestAttempt s call).1.submitted_urls,
         u ∈ (harvestAttempt s call).1.already_harvested_urls) := by
  unfold harvestAttempt
  split
  · exact ⟨h₁, h₂⟩
  · split
    · exact ⟨h₁, h₂⟩
    · rename_i hnotseen _
      constructor
      · refine List.Nodup.append h₁ (List.nodup_singleton _) ?_
        intro u hu hmem
        simp only [List.mem_singleton] at hmem
        exact hnotseen (hmem ▸ h₂ u hu)
      · intro u hu
        simp only [List.mem_append, List.mem_singleton] at hu ⊢
        rcases hu with hu | hu
        · exact Or.inl (h₂ u hu)
        · exact Or.inr hu

/-- The invariant holds after any run started from an invariant state. -/
theorem runHarvestAttempts_invariant (calls : List HarvestCall) :
    ∀ (s : OrchestratorState), s.submitted_urls.Nodup →
      (∀ u ∈ s.submitted_urls, u ∈ s.already_harvested_urls) →
      (runHarvestAttempts s calls).submitted_urls.Nodup := by
  induction calls with
  | nil => intro s h₁ _h₂; exact h₁
  | cons call rest ih =>
    intro s h₁ h₂
    have h := harvestAttempt_preserves_invariant s call h₁ h₂
    exact ih _ h.1 h.2

/-- C6: every URL is submitted to the translation service at most once
per harvest run (the submitted-URL trace of a whole run from start-up
has no duplicates), and a harvest attempt for a URL already recorded in
the already-seen set returns immediately with zero counts and an
unchanged state, performing no service call. -/
theorem url_submitted_at_most_once (calls : List HarvestCall) :
    (runHarvestAttempts {} calls).submitted_urls.Nodup
    ∧ ∀ (s : OrchestratorState) (call : HarvestCall),
        call.harvest_url ∈ s.already_harvested_urls →
        harvestAttempt s call = (s, (0, 0)) := by
  constructor
  · exact runHarvestAttempts_invariant calls {} List.nodup_nil (by intro u hu; cases hu)
  · intro s call h
    unfold harvestAttempt
    simp [h]

/-- Witness for `url_submitted_at_most_once`: a run that attempts the
same URL twice, and the repeated attempt on the recorded state. -/
theorem url_submitted_at_most_once_witness :
    (runHarvestAttempts {}
      [{ harvest_url := "https://example.org/a" }, { harvest_url := "https://example.org/a" }]).submitted_urls.Nodup
    ∧ harvestAttempt { already_harvested_urls := ["https://example.org/a"], submitted_urls := ["https://example.org/a"] }
        { harvest_url := "https://example.org/a" }
      = ({ already_harvested_urls := ["https://example.org/a"], submitted_urls := ["https://example.org/a"] }, (0, 0)) :=
  ⟨(url_submitted_at_most_once _).1,
   (url_submitted_at_most_once []).2 _ _ (by simp)⟩

/-- After `addOrReplace`, the lookup for the triple returns exactly the
stored entry (replace semantics). -/
theorem hasAlreadyBeenDownloaded_addOrReplace (tracker : List TrackerEntry)
    (mode : DeliveryMode) (url journal_name checksum error_message : String) :
    hasAlreadyBeenDownloaded (addOrReplace tracker mode url journal_name checksum error_message)
        mode url checksum
      = some { delivery_mode := mode, url := url, checksum := checksum,
               journal_name := journal_name, error_message := error_message } := by
  unfold hasAlreadyBeenDownloaded addOrReplace
  rw [List.find?_append]
  have hnone :
      (tracker.filter
        (fun e => ¬ (e.delivery_mode = mode ∧ e.url = url ∧ e.checksum = checksum))).find?
        (fun e => e.delivery_mode = mode ∧ e.url = url ∧ e.checksum = checksum) = none := by
    rw [List.find?_eq_none]
    intro e he
    rw [List.mem_filter] at he
    have h₂ := he.2
    simp only [decide_not, Bool.not_eq_true', decide_eq_false_iff_not] at h₂
    simp only [decide_eq_true_eq]
    exact h₂
  rw [hnone]
  simp

/-- The write branch of `HandleTrackingAndWriteRecord`: with tracking
enabled and no clean entry for the triple, the record is written and the
tracker is updated with an entry without an error message. -/
theorem handleTracking_writes (record : List MarcField) (mode : DeliveryMode)
    (ip : TrackingItemParams) (st : DeliveryState) (prev : Nat) (hurl : ip.url ≠ "")
    (hclean : hasCleanEntry st.tracker mode ip.url (toHexString (CalcChecksum [] record)) = false) :
    HandleTrackingAndWriteRecord record false mode ip st prev =
      .ok ({ tracker := addOrReplace st.tracker mode ip.url ip.journal_name
                          (toHexString (CalcChecksum [] record)) "",
             written := st.written ++ [record] }, prev) := by
  unfold HandleTrackingAndWriteRecord
  unfold hasCleanEntry at hclean
  simp only [hurl, if_neg, ite_false, if_false]
  cases hfind : hasAlreadyBeenDownloaded st.tracker mode ip.url (toHexString (CalcChecksum [] record)) with
  | none => simp [hurl, hfind, pure, Except.pure, bind, Except.bind]
  | some e =>
    rw [hfind] at hclean
    simp only [decide_eq_false_iff_not] at hclean
    simp [hurl, hfind, hclean, pure, Except.pure, bind, Except.bind]

/-- The skip branch of `HandleTrackingAndWriteRecord`: with tracking
enabled and a clean entry for the triple already present, nothing is
written and the previously-downloaded counter is incremented. -/
theorem handleTracking_skips (record : List MarcField) (mode : DeliveryMode)
    (ip : TrackingItemParams) (st : DeliveryState) (prev : Nat) (hurl : ip.url ≠ "")
    (hclean : hasCleanEntry st.tracker mode ip.url (toHexString (CalcChecksum [] record)) = true) :
    HandleTrackingAndWriteRecord record false mode ip st prev = .ok (st, prev + 1) := by
  unfold HandleTrackingAndWriteRecord
  unfold hasCleanEntry at hclean
  cases hfind : hasAlreadyBeenDownloaded st.tracker mode ip.url (toHexString (CalcChecksum [] record)) with
  | none => rw [hfind] at hclean; cases hclean
  | some e =>
    rw [hfind] at hclean
    simp only [decide_eq_true_eq] at hclean
    simp [hurl, hfind, hclean, pure, Except.pure, bind, Except.bind]

/-- C1: with tracking enabled, a record is written to the output sink if
and only if no entry for the same (delivery mode, URL, checksum) triple
without a recorded error message exists in the tracker; otherwise
nothing is written and the previously-downloaded counter is incremented;
in particular submitting the same record twice under the same
(mode, url) yields exactly one emission and one counter increment. -/
theorem delivery_tracking_dedup (record : List MarcField) (mode : DeliveryMode)
    (ip : TrackingItemParams) (st : DeliveryState) (prev : Nat) (hurl : ip.url ≠ "") :
    (hasCleanEntry st.tracker mode ip.url (toHexString (CalcChecksum [] record)) = false →
      HandleTrackingAndWriteRecord record false mode ip st prev =
        .ok ({ tracker := addOrReplace st.tracker mode ip.url ip.journal_name
                            (toHexString (CalcChecksum [] record)) "",
               written := st.written ++ [record] }, prev))
    ∧ (hasCleanEntry st.tracker mode ip.url (toHexString (CalcChecksum [] record)) = true →
      HandleTrackingAndWriteRecord record false mode ip st prev = .ok (st, prev + 1))
    ∧ (hasCleanEntry st.tracker mode ip.url (toHexString (CalcChecksum [] record)) = false →
      ∃ st₁ : DeliveryState,
        HandleTrackingAndWriteRecord record false mode ip st prev = .ok (st₁, prev)
        ∧ st₁.written = st.written ++ [record]
        ∧ HandleTrackingAndWriteRecord record false mode ip st₁ prev = .ok (st₁, prev + 1)) := by
  refine ⟨handleTracking_writes record mode ip st prev hurl,
          handleTracking_skips record mode ip st prev hurl, ?_⟩
  intro hclean
  refine ⟨{ tracker := addOrReplace st.tracker mode ip.url ip.journal_name
                         (toHexString (CalcChecksum [] record)) "",
            written := st.written ++ [record] },
          handleTracking_writes record mode ip st prev hurl hclean, rfl, ?_⟩
  apply handleTracking_skips record mode ip _ prev hurl
  unfold hasCleanEntry
  rw [hasAlreadyBeenDownloaded_addOrReplace]
  simp

/-- Witness for `delivery_tracking_dedup`: a fresh tracker, a concrete
record and URL; the second submission of the same record is suppressed. -/
theorem delivery_tracking_dedup_witness :
    ∃ st₁ : DeliveryState,
      HandleTrackingAndWriteRecord [mkControlField "003" "DE-Tue135"] false .LIVE
          { url := "https://example.org/a", journal_name := "J" } {} 0 = .ok (st₁, 0)
      ∧ st₁.written = [[mkControlField "003" "DE-Tue135"]]
      ∧ HandleTrackingAndWriteRecord [mkControlField "003" "DE-Tue135"] false .LIVE
          { url := "https://example.org/a", journal_name := "J" } st₁ 0 = .ok (st₁, 0 + 1) :=
  (delivery_tracking_dedup [mkControlField "003" "DE-Tue135"] .LIVE
      { url := "https://example.org/a", journal_name := "J" } {} 0 (by decide)).2.2 (by decide)

/-- Unfolding of `foldNotesGroupedSpec` at a cons cell. -/
theorem foldNotesGroupedSpec_cons (e : ZoteroItem) (t : List ZoteroItem) :
    foldNotesGroupedSpec (e :: t) =
      if e.itemType = "note" then
        .error "unexpected note object in translation server response!"
      else
        match foldNotesGroupedSpec (t.dropWhile (fun x => x.itemType = "note")) with
        | .ok out =>
          .ok ({ e with notes := (t.takeWhile (fun x => x.itemType = "note")).map (fun x => x.note) } :: out)
        | .error msg => .error msg := by
  conv_lhs => rw [foldNotesGroupedSpec]

/-- Appending a note to the last entry of a nonempty accumulated array. -/
theorem appendNoteToLast_append (acc : List ZoteroItem) (m : ZoteroItem) (n : String) :
    appendNoteToLast (acc ++ [m]) n = acc ++ [{ m with notes := m.notes ++ [n] }] := by
  induction acc with
  | nil => rfl
  | cons a as ih =>
    have hcons : ∃ b bs, as ++ [m] = b :: bs := by
      cases as with
      | nil => exact ⟨m, [], rfl⟩
      | cons c cs => exact ⟨c, cs ++ [m], rfl⟩
    obtain ⟨b, bs, has⟩ := hcons
    calc appendNoteToLast ((a :: as) ++ [m]) n
        = appendNoteToLast (a :: b :: bs) n := by rw [List.cons_append, has]
      _ = a :: appendNoteToLast (b :: bs) n := by simp [appendNoteToLast]
      _ = a :: appendNoteToLast (as ++ [m]) n := by rw [← has]
      _ = a :: (as ++ [{ m with notes := m.notes ++ [n] }]) := by rw [ih]
      _ = (a :: as) ++ [{ m with notes := m.notes ++ [n] }] := by simp

/-- The note-folding loop relative to a nonempty accumulator equals the
grouped declarative folding of the remaining input, appended behind the
accumulator, with the leading run of notes folded into the accumulator's
last entry. -/
theorem foldNotesLoop_grouped (l : List ZoteroItem) :
    ∀ (acc : List ZoteroItem) (m : ZoteroItem),
      foldNotesLoop l (acc ++ [m]) =
        match foldNotesGroupedSpec (l.dropWhile (fun x => x.itemType = "note")) with
        | .ok out =>
          .ok (acc
               ++ [{ m with notes := m.notes
                      ++ (l.takeWhile (fun x => x.itemType = "note")).map (fun x => x.note) }]
               ++ out)
        | .error msg => .error msg := by
  induction l with
  | nil =>
    intro acc m
    simp [foldNotesLoop, foldNotesGroupedSpec]
  | cons e t ih =>
    intro acc m
    by_cases hnote : e.itemType = "note"
    · have hne : acc ++ [m] ≠ [] := by simp
      rw [show foldNotesLoop (e :: t) (acc ++ [m])
            = if e.itemType = "note" then
                (if acc ++ [m] = [] then
                   .error "unexpected note object in translation server response!"
                 else foldNotesLoop t (appendNoteToLast (acc ++ [m]) e.note))
              else foldNotesLoop t ((acc ++ [m]) ++ [{ e with notes := [] }]) from rfl]
      rw [if_pos hnote, if_neg hne, appendNoteToLast_append,
          ih acc { m with notes := m.notes ++ [e.note] }]
      simp only [List.dropWhile_cons, List.takeWhile_cons, hnote]
      simp only [decide_True, if_true, ite_true]
      cases foldNotesGroupedSpec (t.dropWhile (fun x => x.itemType = "note")) with
      | ok out => simp
      | error msg => simp
    · rw [show foldNotesLoop (e :: t) (acc ++ [m])
            = if e.itemType = "note" then
                (if acc ++ [m] = [] then
                   .error "unexpected note object in translation server response!"
                 else foldNotesLoop t (appendNoteToLast (acc ++ [m]) e.note))
              else foldNotesLoop t ((acc ++ [m]) ++ [{ e with notes := [] }]) from rfl]
      rw [if_neg hnote]
      rw [ih (acc ++ [m]) { e with notes := [] }]
      simp only [List.dropWhile_cons, List.takeWhile_cons, hnote, decide_False,
        Bool.false_eq_true, if_false, ite_false]
      rw [foldNotesGroupedSpec_cons, if_neg hnote]
      cases foldNotesGroupedSpec (t.dropWhile (fun x => x.itemType = "note")) with
      | ok out => simp
      | error msg => simp

/-- C7: the response post-processing of the orchestrator folds each note
object into the notes array of the immediately preceding non-note object
in emission order — non-note objects keep their relative order and each
receives a notes array holding exactly the notes that follow it, and a
note appearing before any non-note object is an error:
`PreprocessHarvesterResponse` coincides with the grouped declarative
description `foldNotesGroupedSpec`. -/
theorem note_folding_matches_grouped_spec (response : List ZoteroItem) :
    PreprocessHarvesterResponse response = foldNotesGroupedSpec response := by
  unfold PreprocessHarvesterResponse
  cases response with
  | nil => simp [foldNotesLoop, foldNotesGroupedSpec]
  | cons e t =>
    by_cases hnote : e.itemType = "note"
    · simp [foldNotesLoop, foldNotesGroupedSpec, hnote]
    · rw [show foldNotesLoop (e :: t) []
            = if e.itemType = "note" then
                (if ([] : List ZoteroItem) = [] then
                   .error "unexpected note object in translation server response!"
                 else foldNotesLoop t (appendNoteToLast [] e.note))
              else foldNotesLoop t ([] ++ [{ e with notes := [] }]) from rfl]
      rw [if_neg hnote]
      have h := foldNotesLoop_grouped t [] { e with notes := [] }
      simp only [List.nil_append] at h ⊢
      rw [h]
      simp only [foldNotesGroupedSpec, hnote, if_false, ite_false]
      cases foldNotesGroupedSpec (t.dropWhile (fun x => x.itemType = "note")) with
      | ok out => simp
      | error msg => simp

/-- `resolveLanguage` only ever changes the language field. -/
theorem resolveLanguage_ok_shape (ext : Externals) (mr : MetadataRecord) (jp : JournalParams)
    (mr' : MetadataRecord) (h : resolveLanguage ext mr jp = .ok mr') :
    ∃ l, mr' = { mr with language := l } := by
  unfold resolveLanguage IdentifyMissingLanguage at h
  dsimp only at h
  split at h
  · split at h
    · exact ⟨mr.language, by simp only [Except.ok.injEq] at h; rw [← h]⟩
    · split at h
      · simp only [Except.ok.injEq] at h
        exact ⟨_, h.symm⟩
      · split at h
        · simp only [Except.ok.injEq] at h
          exact ⟨_, h.symm⟩
        · split at h
          · simp only [Except.ok.injEq] at h
            exact ⟨_, h.symm⟩
          · split at h
            · simp only [Except.ok.injEq] at h
              exact ⟨_, h.symm⟩
            · cases h
  · simp only [Except.ok.injEq] at h
    exact ⟨_, h.symm⟩

/-- `tagReviews` only ever changes the item type. -/
theorem tagReviews_shape (mr : MetadataRecord) (jp : JournalParams) :
    ∃ ty, tagReviews mr jp = { mr with item_type := ty } := by
  unfold tagReviews
  repeat' split
  all_goals first
    | exact ⟨"review", rfl⟩
    | exact ⟨mr.item_type, rfl⟩

/-- Normal form of a successful `AugmentMetadataRecord` run: the result
is the input with the date normalised, leading zeros stripped from
volume and issue, the pages normalised, the publication title forced to
the journal name, the ISSN/PPN pair chosen by `selectIssnAndPpn`, the
creators post-processed, some language, the license and SSG fields
filled in, and some item type. -/
theorem AugmentMetadataRecord_ok_form (ext : Externals) (mr₀ : MetadataRecord)
    (jp : JournalParams) (gp : GroupParams) (mr' : MetadataRecord)
    (h : AugmentMetadataRecord ext mr₀ jp gp = .ok mr') :
    ∃ (d lang ty : String) (sel : String × String × SuperiorType),
      selectIssnAndPpn mr₀.issn jp = .ok sel
      ∧ mr' = { url := mr₀.url, item_type := ty, title := mr₀.title,
                short_title := mr₀.short_title, abstract_note := mr₀.abstract_note,
                publication_title := jp.name,
                volume := leftTrimZeros mr₀.volume, issue := leftTrimZeros mr₀.issue,
                pages := normalizePages mr₀.pages, date := d, doi := mr₀.doi,
                language := lang, issn := sel.1,
                license := if jp.license = "LF" then jp.license else mr₀.license,
                superior_ppn := sel.2.1, superior_type := sel.2.2,
                ssg := GetSSGTypeFromString jp.ssgn,
                creators := mr₀.creators.map (postProcessCreator ext gp),
                keywords := mr₀.keywords, custom_metadata := mr₀.custom_metadata } := by
  unfold AugmentMetadataRecord at h
  simp only [bind, Except.bind, pure, Except.pure] at h
  split at h
  case isTrue hd =>
    cases htm : ext.stringToStructTm mr₀.date jp.strptime_format with
    | error e => rw [htm] at h; cases h
    | ok tm =>
      rw [htm] at h
      simp only at h
      cases hsel : selectIssnAndPpn mr₀.issn jp with
      | error e => rw [hsel] at h; cases h
      | ok sel =>
        rw [hsel] at h
        simp only at h
        cases hres : resolveLanguage ext
            { mr₀ with
              date := natToString (tm.tm_year + 1900) ++ "-" ++ pad2 (tm.tm_mon + 1) ++ "-"
                      ++ pad2 tm.tm_mday,
              issue := leftTrimZeros mr₀.issue, volume := leftTrimZeros mr₀.volume,
              pages := normalizePages mr₀.pages, publication_title := jp.name,
              issn := sel.1, superior_ppn := sel.2.1, superior_type := sel.2.2,
              creators := mr₀.creators.map (postProcessCreator ext gp) } jp with
        | error e => rw [hres] at h; cases h
        | ok mrL =>
          rw [hres] at h
          simp only [Except.ok.injEq] at h
          obtain ⟨l, hl⟩ := resolveLanguage_ok_shape _ _ _ _ hres
          obtain ⟨ty, hty⟩ := tagReviews_shape _ jp
          refine ⟨natToString (tm.tm_year + 1900) ++ "-" ++ pad2 (tm.tm_mon + 1) ++ "-"
                    ++ pad2 tm.tm_mday, l, ty, sel, rfl, ?_⟩
          rw [← h, hty, hl]
  case isFalse hd =>
    cases hsel : selectIssnAndPpn mr₀.issn jp with
    | error e => rw [hsel] at h; cases h
    | ok sel =>
      rw [hsel] at h
      simp only at h
      cases hres : resolveLanguage ext
          { mr₀ with
            issue := leftTrimZeros mr₀.issue, volume := leftTrimZeros mr₀.volume,
            pages := normalizePages mr₀.pages, publication_title := jp.name,
            issn := sel.1, superior_ppn := sel.2.1, superior_type := sel.2.2,
            creators := mr₀.creators.map (postProcessCreator ext gp) } jp with
      | error e => rw [hres] at h; cases h
      | ok mrL =>
        rw [hres] at h
        simp only [Except.ok.injEq] at h
        obtain ⟨l, hl⟩ := resolveLanguage_ok_shape _ _ _ _ hres
        obtain ⟨ty, hty⟩ := tagReviews_shape _ jp
        refine ⟨mr₀.date, l, ty, sel, rfl, ?_⟩
        rw [← h, hty, hl]

/-- Augmentation fails whenever the ISSN/PPN selection fails. -/
theorem augment_error_of_select (ext : Externals) (mr : MetadataRecord) (jp : JournalParams)
    (gp : GroupParams) (he : ∀ z, ∃ msg, selectIssnAndPpn z jp = .error msg) :
    ∃ msg, AugmentMetadataRecord ext mr jp gp = .error msg := by
  cases haug : AugmentMetadataRecord ext mr jp gp with
  | error e => exact ⟨e, rfl⟩
  | ok mr2 =>
    obtain ⟨d, lang, ty, sel, hsel, _⟩ := AugmentMetadataRecord_ok_form ext mr jp gp mr2 haug
    obtain ⟨msg, hmsg⟩ := he mr.issn
    rw [hsel] at hmsg
    cases hmsg

/-- C3: metadata augmentation selects the ISSN/identifier pair with
priority online over print: a nonempty online ISSN selects the online
pair and fails when the online PPN is empty; otherwise a nonempty print
ISSN selects the print pair and fails when the print PPN is empty; and
augmentation fails when neither ISSN is configured. -/
theorem issn_priority_online_over_print (ext : Externals) (mr : MetadataRecord)
    (jp : JournalParams) (gp : GroupParams) :
    (jp.issn.online ≠ "" → jp.ppn.online ≠ "" →
      ∀ mr', AugmentMetadataRecord ext mr jp gp = .ok mr' →
        mr'.issn = jp.issn.online ∧ mr'.superior_ppn = jp.ppn.online
        ∧ mr'.superior_type = .ONLINE)
    ∧ (jp.issn.online ≠ "" → jp.ppn.online = "" →
      ∃ msg, AugmentMetadataRecord ext mr jp gp = .error msg)
    ∧ (jp.issn.online = "" → jp.issn.print ≠ "" → jp.ppn.print ≠ "" →
      ∀ mr', AugmentMetadataRecord ext mr jp gp = .ok mr' →
        mr'.issn = jp.issn.print ∧ mr'.superior_ppn = jp.ppn.print
        ∧ mr'.superior_type = .PRINT)
    ∧ (jp.issn.online = "" → jp.issn.print ≠ "" → jp.ppn.print = "" →
      ∃ msg, AugmentMetadataRecord ext mr jp gp = .error msg)
    ∧ (jp.issn.online = "" → jp.issn.print = "" →
      ∃ msg, AugmentMetadataRecord ext mr jp gp = .error msg) := by
  refine ⟨?_, ?_, ?_, ?_, ?_⟩
  · intro h₁ h₂ mr' hok
    obtain ⟨d, lang, ty, sel, hsel, heq⟩ := AugmentMetadataRecord_ok_form ext mr jp gp mr' hok
    have hsel₂ : selectIssnAndPpn mr.issn jp = .ok (jp.issn.online, jp.ppn.online, .ONLINE) := by
      simp [selectIssnAndPpn, h₁, h₂]
    rw [hsel₂] at hsel
    simp only [Except.ok.injEq] at hsel
    subst hsel
    rw [heq]
    exact ⟨rfl, rfl, rfl⟩
  · intro h₁ h₂
    apply augment_error_of_select
    intro z
    exact ⟨_, by unfold selectIssnAndPpn; rw [if_pos h₁, if_pos h₂]⟩
  · intro h₀ h₁ h₂ mr' hok
    obtain ⟨d, lang, ty, sel, hsel, heq⟩ := AugmentMetadataRecord_ok_form ext mr jp gp mr' hok
    have hsel₂ : selectIssnAndPpn mr.issn jp = .ok (jp.issn.print, jp.ppn.print, .PRINT) := by
      simp [selectIssnAndPpn, h₀, h₁, h₂]
    rw [hsel₂] at hsel
    simp only [Except.ok.injEq] at hsel
    subst hsel
    rw [heq]
    exact ⟨rfl, rfl, rfl⟩
  · intro h₀ h₁ h₂
    apply augment_error_of_select
    intro z
    exact ⟨_, by unfold selectIssnAndPpn; rw [if_neg (by simp [h₀]), if_pos h₁, if_pos h₂]⟩
  · intro h₀ h₁
    apply augment_error_of_select
    intro z
    exact ⟨_, by unfold selectIssnAndPpn; rw [if_neg (by simp [h₀]), if_neg (by simp [h₁])]⟩

/-- Witness for `issn_priority_online_over_print`: the fixture journal
with both pairs selects the online pair, and the journal with an online
ISSN but no online PPN makes augmentation fail. -/
theorem issn_priority_online_over_print_witness :
    (mrFixAugmented.issn = "1234-5678" ∧ mrFixAugmented.superior_ppn = "PPN1"
     ∧ mrFixAugmented.superior_type = .ONLINE)
    ∧ ∃ msg, AugmentMetadataRecord extFix mrFixNoDate jpFixNoPpn gpFix = .error msg :=
  ⟨(issn_priority_online_over_print extFix (ConvertZoteroItemToMetadataRecord itemFixNoUrl)
      jpFix gpFix).1 (by decide) (by decide) mrFixAugmented rfl,
   (issn_priority_online_over_print extFix mrFixNoDate jpFixNoPpn gpFix).2.1
      (by decide) rfl⟩

/-- C9: an item whose metadata record still has an empty url field after
normalisation and augmentation produces no built record — the "no URL
set" error is raised and caught inside the per-item scope — and the
remaining items of the same task are still processed: the item loop
continues on the rest with only a caught warning appended. -/
theorem empty_url_item_is_caught_and_skipped (ext : Externals) (t : HarvestTime)
    (parameters : ConversionParams) (item : ZoteroItem) (rest : List ZoteroItem)
    (result : ConversionResult) (mr' : MetadataRecord)
    (hexcl : ZoteroItemMatchesExclusionFilters parameters.download_item item = false)
    (haug : AugmentMetadataRecord ext (ConvertZoteroItemToMetadataRecord item)
              parameters.download_item.journal parameters.group_params = .ok mr')
    (hurl : mr'.url = "") :
    runItems ext t parameters (item :: rest) result =
      runItems ext t parameters rest
        { result with caught_errors := result.caught_errors ++ ["couldn't convert record: no URL set"] } := by
  have hcore : processOneItemCore ext t parameters item result = .error "no URL set" := by
    unfold processOneItemCore
    rw [if_neg (by simp [hexcl])]
    simp [bind, Except.bind, haug, hurl]
  show runItems ext t parameters rest (processOneItem ext t parameters item result) = _
  unfold processOneItem
  rw [hcore]
  rfl

/-- Witness for `empty_url_item_is_caught_and_skipped`: the fixture item
without a url, followed by another copy of itself. -/
theorem empty_url_item_is_caught_and_skipped_witness :
    runItems extFix { currentDate := "2026-01-01", currentYear := "2026" } paramsFix
        [itemFixNoUrl, itemFixNoUrl] {} =
      runItems extFix { currentDate := "2026-01-01", currentYear := "2026" } paramsFix
        [itemFixNoUrl]
        { caught_errors := [] ++ ["couldn't convert record: no URL set"] } :=
  empty_url_item_is_caught_and_skipped extFix
    { currentDate := "2026-01-01", currentYear := "2026" } paramsFix itemFixNoUrl
    [itemFixNoUrl] {} mrFixAugmented rfl rfl rfl

/-- A hyphen-free string has no eligible split. -/
theorem splitLastHyphen_of_not_mem (y : List Char) (hy : '-' ∉ y) : splitLastHyphen y = none := by
  induction y with
  | nil => rfl
  | cons c rest ih =>
    have hc : c ≠ '-' := fun h => hy (h ▸ List.mem_cons_self c rest)
    have hrest : '-' ∉ rest := fun h => hy (List.mem_cons_of_mem c h)
    simp only [splitLastHyphen, ih hrest]
    rw [if_neg]
    intro hcontra
    exact hc hcontra.1

/-- Splitting a string of the form `x-y` with a hyphen-free, nonempty
suffix yields exactly `(x, y)`. -/
theorem splitLastHyphen_append (x y : List Char) (hy : '-' ∉ y) (hney : y ≠ []) :
    splitLastHyphen (x ++ '-' :: y) = some (x, y) := by
  induction x with
  | nil =>
    simp only [List.nil_append, splitLastHyphen, splitLastHyphen_of_not_mem y hy]
    rw [if_pos ⟨trivial, hney⟩]
  | cons c cs ih =>
    simp only [List.cons_append, splitLastHyphen, List.append_eq, ih]

/-- Every character `natDigitChar` produces is a decimal digit. -/
theorem natDigitChar_isDigit (m : Nat) : (natDigitChar m).isDigit = true := by
  unfold natDigitChar
  split <;> decide

/-- Every character of `natDigitsFuel` is a decimal digit. -/
theorem natDigitsFuel_all_digit (fuel : Nat) :
    ∀ (n : Nat), ∀ c ∈ natDigitsFuel fuel n, c.isDigit = true := by
  induction fuel with
  | zero => intro n c hc; cases hc
  | succ fuel ih =>
    intro n c hc
    rw [natDigitsFuel] at hc
    split at hc
    · cases hc
    · rcases List.mem_append.mp hc with h | h
      · exact ih (n / 10) c h
      · rw [List.mem_singleton] at h
        rw [h]
        exact natDigitChar_isDigit _

/-- Every character of `natDigits` is a decimal digit. -/
theorem natDigits_all_digit (n : Nat) : ∀ c ∈ natDigits n, c.isDigit = true :=
  natDigitsFuel_all_digit n n

/-- `natToString` is nonempty and all digits. -/
theorem natToString_digits (n : Nat) :
    (natToString n).data ≠ [] ∧ ∀ c ∈ (natToString n).data, c.isDigit = true := by
  unfold natToString
  split
  · refine ⟨by decide, ?_⟩
    intro c hc
    have hc0 : c = '0' := by simpa using hc
    rw [hc0]
    decide
  · rename_i hn
    constructor
    · cases n with
      | zero => exact absurd rfl hn
      | succ m =>
        show (natDigitsFuel (m + 1) (m + 1)) ≠ []
        rw [natDigitsFuel, if_neg (Nat.succ_ne_zero m)]
        exact List.append_ne_nil_of_right_ne_nil _ (by simp)
    · exact natDigits_all_digit n

/-- There is no hyphen in a rendered number. -/
theorem hyphen_not_mem_natToString (n : Nat) : '-' ∉ (natToString n).data := by
  intro h
  have := (natToString_digits n).2 '-' h
  cases this

/-- The roman-range case of `normalizePages`: when the uppercased pages
value matches `^(.+)-(.+)$` and both capture groups match the roman
numeral pattern, both ends are converted to decimal and an equal-bound
result collapses to the single page. -/
theorem normalizePages_roman (p : String) (a b : List Char)
    (hmatch : pageRangeMatch (toUpperString p) = some (a, b))
    (hra : isRomanNumeral a = true) (hrb : isRomanNumeral b = true) :
    normalizePages p =
      (if natToString (romanNumeralToDecimal a) = natToString (romanNumeralToDecimal b) then
         natToString (romanNumeralToDecimal a)
       else
         natToString (romanNumeralToDecimal a) ++ "-" ++ natToString (romanNumeralToDecimal b)) := by
  unfold normalizePages
  rw [hmatch]
  simp only [hra, hrb, if_true, ite_true]
  have hpages₁ :
      (if natToString (romanNumeralToDecimal a) ++ "-" ++ natToString (romanNumeralToDecimal b) ≠ p
       then natToString (romanNumeralToDecimal a) ++ "-" ++ natToString (romanNumeralToDecimal b)
       else p)
      = natToString (romanNumeralToDecimal a) ++ "-" ++ natToString (romanNumeralToDecimal b) := by
    split
    · rfl
    · rename_i hne
      rw [not_not] at hne
      rw [hne]
  rw [hpages₁]
  have hdata :
      (natToString (romanNumeralToDecimal a) ++ "-" ++ natToString (romanNumeralToDecimal b)).data
      = (natToString (romanNumeralToDecimal a)).data ++ '-' :: (natToString (romanNumeralToDecimal b)).data := by
    simp [String.data_append]
  have hsplit :
      pageRangeDigitMatch
        (natToString (romanNumeralToDecimal a) ++ "-" ++ natToString (romanNumeralToDecimal b))
      = some ((natToString (romanNumeralToDecimal a)).data, (natToString (romanNumeralToDecimal b)).data) := by
    unfold pageRangeDigitMatch
    rw [hdata, splitLastHyphen_append _ _ (hyphen_not_mem_natToString _) (natToString_digits _).1]
    dsimp only
    rw [if_pos]
    refine ⟨(natToString_digits _).1, ?_, ?_⟩
    · rw [List.all_eq_true]
      intro c hc
      exact (natToString_digits _).2 c hc
    · rw [List.all_eq_true]
      intro c hc
      exact (natToString_digits _).2 c hc
  rw [hsplit]
  dsimp only
  by_cases heq : natToString (romanNumeralToDecimal a) = natToString (romanNumeralToDecimal b)
  · rw [if_pos (congrArg String.data heq), if_pos heq]
  · rw [if_neg (fun hdd => heq (String.ext hdd)), if_neg heq]

/-- C8: during metadata augmentation a pages value of the form `A-B` has
each end converted from a roman numeral to its decimal value when both
ends parse as roman numerals ("XII-XV" becomes "12-15"), a resulting
all-digit range with equal bounds collapses to the single page ("5-5"
becomes "5"), a plain digit range with distinct bounds such as "5-10" is
left unchanged, and leading zeros are stripped from volume and issue. -/
theorem pages_and_volume_issue_normalisation :
    normalizePages "XII-XV" = "12-15"
    ∧ normalizePages "5-5" = "5"
    ∧ normalizePages "5-10" = "5-10"
    ∧ (∀ (p : String) (a b : List Char),
        pageRangeMatch (toUpperString p) = some (a, b) →
        isRomanNumeral a = true → isRomanNumeral b = true →
        normalizePages p =
          (if natToString (romanNumeralToDecimal a) = natToString (romanNumeralToDecimal b) then
             natToString (romanNumeralToDecimal a)
           else
             natToString (romanNumeralToDecimal a) ++ "-" ++ natToString (romanNumeralToDecimal b)))
    ∧ (∀ (ext : Externals) (mr : MetadataRecord) (jp : JournalParams) (gp : GroupParams)
         (mr' : MetadataRecord),
        AugmentMetadataRecord ext mr jp gp = .ok mr' →
        mr'.pages = normalizePages mr.pages
        ∧ mr'.volume = leftTrimZeros mr.volume
        ∧ mr'.issue = leftTrimZeros mr.issue) := by
  refine ⟨by rfl, by rfl, by rfl, normalizePages_roman, ?_⟩
  intro ext mr jp gp mr' hok
  obtain ⟨d, lang, ty, sel, hsel, heq⟩ := AugmentMetadataRecord_ok_form ext mr jp gp mr' hok
  rw [heq]
  exact ⟨rfl, rfl, rfl⟩

/-- Witness for `pages_and_volume_issue_normalisation`: the roman-range
conversion at "X-III" and the fixture augmentation run. -/
theorem pages_and_volume_issue_normalisation_witness :
    normalizePages "X-III" =
      (if natToString (romanNumeralToDecimal "X".data) = natToString (romanNumeralToDecimal "III".data)
       then natToString (romanNumeralToDecimal "X".data)
       else natToString (romanNumeralToDecimal "X".data) ++ "-" ++ natToString (romanNumeralToDecimal "III".data))
    ∧ (mrFixAugmented.pages = normalizePages (ConvertZoteroItemToMetadataRecord itemFixNoUrl).pages
       ∧ mrFixAugmented.volume = leftTrimZeros (ConvertZoteroItemToMetadataRecord itemFixNoUrl).volume
       ∧ mrFixAugmented.issue = leftTrimZeros (ConvertZoteroItemToMetadataRecord itemFixNoUrl).issue) :=
  ⟨pages_and_volume_issue_normalisation.2.2.2.1 "X-III" "X".data "III".data
     (by decide) (by decide) (by decide),
   pages_and_volume_issue_normalisation.2.2.2.2 extFix
     (ConvertZoteroItemToMetadataRecord itemFixNoUrl) jpFix gpFix mrFixAugmented rfl⟩

/-- Membership in a sorted insertion. -/
theorem tagLtb_asymm : ∀ (a b : List Char), tagLtb a b = true → tagLtb b a = false
  | [], [], h => by simp [tagLtb] at h
  | [], _ :: _, _ => by simp [tagLtb]
  | _ :: _, [], h => by simp [tagLtb] at h
  | c :: cs, d :: ds, h => by
    unfold tagLtb at h ⊢
    by_cases h₁ : c.toNat < d.toNat
    · rw [if_pos h₁] at h
      rw [if_neg (Nat.lt_asymm h₁), if_pos h₁]
    · rw [if_neg h₁] at h
      by_cases h₂ : d.toNat < c.toNat
      · rw [if_pos h₂] at h
        simp at h
      · rw [if_neg h₂] at h
        rw [if_neg h₂, if_neg h₁]
        exact tagLtb_asymm cs ds h

theorem tagLtb_le_trans : ∀ (a b c : List Char),
    tagLtb b a = false → tagLtb c b = false → tagLtb c a = false
  | [], [], [], _, _ => rfl
  | _ :: _, [], _, hb, _ => by simp [tagLtb] at hb
  | _, _ :: _, [], _, hc => by simp [tagLtb] at hc
  | [], _, _ :: _, _, _ => rfl
  | a₁ :: as, b₁ :: bs, c₁ :: cs, hb, hc => by
    unfold tagLtb at hb hc ⊢
    by_cases hba : b₁.toNat < a₁.toNat
    · rw [if_pos hba] at hb
      simp at hb
    · rw [if_neg hba] at hb
      by_cases hcb : c₁.toNat < b₁.toNat
      · rw [if_pos hcb] at hc
        simp at hc
      · rw [if_neg hcb] at hc
        have hac : a₁.toNat ≤ c₁.toNat :=
          Nat.le_trans (Nat.le_of_not_lt hba) (Nat.le_of_not_lt hcb)
        rw [if_neg (Nat.not_lt.mpr hac)]
        by_cases hca : a₁.toNat < c₁.toNat
        · rw [if_pos hca]
        · rw [if_neg hca]
          have hab : a₁.toNat = b₁.toNat :=
            Nat.le_antisymm (Nat.le_of_not_lt hba)
              (Nat.le_trans (Nat.le_of_not_lt hcb) (Nat.le_of_not_lt hca))
          have hbc : b₁.toNat = c₁.toNat :=
            Nat.le_antisymm (Nat.le_of_not_lt hcb)
              (Nat.le_trans (Nat.le_of_not_lt hca) (Nat.le_of_not_lt hba))
          rw [if_neg (fun h₀ => Nat.lt_irrefl _ (hab ▸ h₀))] at hb
          rw [if_neg (fun h₀ => Nat.lt_irrefl _ (hbc ▸ h₀))] at hc
          exact tagLtb_le_trans as bs cs hb hc

theorem mem_insertField {r : List MarcField} {f g : MarcField} :
    g ∈ insertField r f ↔ g = f ∨ g ∈ r := by
  induction r with
  | nil => simp [insertField]
  | cons h t ih =>
    unfold insertField
    split
    · simp only [List.mem_cons, ih]
      tauto
    · simp only [List.mem_cons]

/-- Sorted insertion preserves tag-sortedness. -/
theorem insertField_pairwise {r : List MarcField} (f : MarcField)
    (h : r.Pairwise (fun a b => tagLtb b.tag.data a.tag.data = false)) :
    (insertField r f).Pairwise (fun a b => tagLtb b.tag.data a.tag.data = false) := by
  induction r with
  | nil => simp [insertField]
  | cons g t ih =>
    rw [List.pairwise_cons] at h
    unfold insertField
    split
    · rename_i hlt
      rw [List.pairwise_cons]
      refine ⟨?_, ih h.2⟩
      intro x hx
      rcases mem_insertField.mp hx with rfl | hx
      · exact tagLtb_asymm _ _ hlt
      · exact h.1 x hx
    · rename_i hnlt
      rw [List.pairwise_cons]
      refine ⟨?_, List.pairwise_cons.mpr h⟩
      intro x hx
      rcases List.mem_cons.mp hx with rfl | hx
      · exact Bool.eq_false_iff.mpr hnlt
      · exact tagLtb_le_trans _ _ _ (Bool.eq_false_iff.mpr hnlt) (h.1 x hx)

/-- Filtering commutes with inserting a field the filter drops. -/
theorem filter_insertField_neg (p : MarcField → Bool) (r : List MarcField) (f : MarcField)
    (hf : p f = false) :
    (insertField r f).filter p = r.filter p := by
  induction r with
  | nil => simp [insertField, hf]
  | cons g t ih =>
    unfold insertField
    split
    · simp only [List.filter_cons, ih]
    · simp [List.filter_cons, hf]

/-- Filtering commutes with inserting a kept field into a sorted list. -/
theorem filter_insertField_pos (p : MarcField → Bool) {r : List MarcField} (f : MarcField)
    (hf : p f = true)
    (hsort : r.Pairwise (fun a b => tagLtb b.tag.data a.tag.data = false)) :
    (insertField r f).filter p = insertField (r.filter p) f := by
  induction r with
  | nil => simp [insertField, hf]
  | cons g t ih =>
    rw [List.pairwise_cons] at hsort
    rw [show insertField (g :: t) f
          = if tagLtb g.tag.data f.tag.data then g :: insertField t f
            else f :: g :: t from rfl]
    by_cases hlt : tagLtb g.tag.data f.tag.data = true
    · rw [if_pos hlt]
      by_cases hg : p g
      · rw [List.filter_cons_of_pos hg, List.filter_cons_of_pos hg, ih hsort.2,
            show insertField (g :: t.filter p) f
              = if tagLtb g.tag.data f.tag.data then g :: insertField (t.filter p) f
                else f :: g :: t.filter p from rfl,
            if_pos hlt]
      · rw [List.filter_cons_of_neg (by simp [hg]), List.filter_cons_of_neg (by simp [hg]),
            ih hsort.2]
    · rw [if_neg hlt]
      have hfg : tagLtb g.tag.data f.tag.data = false := Bool.eq_false_iff.mpr hlt
      by_cases hg : p g
      · rw [List.filter_cons_of_pos hf, List.filter_cons_of_pos hg,
            show insertField (g :: t.filter p) f
              = if tagLtb g.tag.data f.tag.data then g :: insertField (t.filter p) f
                else f :: g :: t.filter p from rfl,
            if_neg hlt]
      · rw [List.filter_cons_of_pos hf, List.filter_cons_of_neg (by simp [hg])]
        cases hft : t.filter p with
        | nil => rfl
        | cons x xs =>
          have hx : x ∈ t := List.mem_of_mem_filter (hft ▸ List.mem_cons_self x xs)
          have hxf : tagLtb x.tag.data f.tag.data = false :=
            tagLtb_le_trans _ _ _ hfg (hsort.1 x hx)
          rw [show insertField (x :: xs) f
                = if tagLtb x.tag.data f.tag.data then x :: insertField xs f
                  else f :: x :: xs from rfl,
              if_neg (by simp [hxf])]

/-- Filtering a sorted-insertion fold keeps only the kept fields,
inserted in the same order. -/
theorem filter_foldl_insertField (p : MarcField → Bool) (fs : List MarcField) :
    ∀ r : List MarcField, r.Pairwise (fun a b => tagLtb b.tag.data a.tag.data = false) →
      (fs.foldl insertField r).filter p = (fs.filter p).foldl insertField (r.filter p) := by
  induction fs with
  | nil => intro r _; simp
  | cons f fs ih =>
    intro r hr
    rw [List.foldl_cons, List.filter_cons]
    by_cases hf : p f
    · rw [ih (insertField r f) (insertField_pairwise f hr),
          filter_insertField_pos p f hf hr]
      simp [hf]
    · rw [ih (insertField r f) (insertField_pairwise f hr),
          filter_insertField_neg p r f (by simp [hf])]
      simp [hf]

/-- The checksum filter commutes with the removal filters. -/
theorem filter_applyRemovalFilters (p : MarcField → Bool) (jp : JournalParams)
    (r : List MarcField) :
    (applyRemovalFilters jp r).filter p = applyRemovalFilters jp (r.filter p) := by
  unfold applyRemovalFilters
  generalize jp.marc_metadata_params.fields_to_remove = rules
  induction rules generalizing r with
  | nil => simp
  | cons rule rules ih =>
    simp only [List.foldl_cons]
    rw [ih, List.filter_comm]

/-- The bookkeeping fields all carry excluded tags. -/
theorem bookkeeping_filter_excluded (di : HarvestableItem) (gp : GroupParams) :
    (bookkeepingMarcFields di gp).filter
      (fun f => ¬ EXCLUDED_FIELDS_DURING_CHECKSUM_CALC.contains f.tag) = [] := by
  rfl

/-- C2 (amended): provided the metadata record's date yields a year, the
content checksum computed by record generation is the same across runs
that differ arbitrarily in harvest time, source URL, journal id and
journal name — the checksum is a pure function of the bibliographic
content, unaffected by the 001, URL, ZID and JOU bookkeeping fields. -/
theorem checksum_content_invariance (mr : MetadataRecord) (jp : JournalParams)
    (gp : GroupParams) (t₁ t₂ : HarvestTime) (url₁ url₂ name₁ name₂ : String)
    (zid₁ zid₂ y : Nat) (hy : stringToYear mr.date = some y) :
    generationHash (GenerateMarcRecordFromMetadataRecord
        { journal := { jp with name := name₁, zeder_id := zid₁ }, url := url₁ } mr gp t₁)
      = generationHash (GenerateMarcRecordFromMetadataRecord
        { journal := { jp with name := name₂, zeder_id := zid₂ }, url := url₂ } mr gp t₂) := by
  unfold GenerateMarcRecordFromMetadataRecord
  rw [hy]
  simp only [bind, Except.bind]
  cases hcf : creatorMarcFields mr.creators.reverse mr.creators.length with
  | error e => rfl
  | ok cfs =>
    dsimp only
    by_cases ht : mr.title = ""
    · rw [if_pos ht, if_pos ht]
      rfl
    · rw [if_neg ht, if_neg ht]
      have hcust : customMarcFieldsList mr { jp with name := name₂, zeder_id := zid₂ }
          = customMarcFieldsList mr { jp with name := name₁, zeder_id := zid₁ } := rfl
      rw [hcust]
      cases hcu : customMarcFieldsList mr { jp with name := name₁, zeder_id := zid₁ } with
      | error e => rfl
      | ok custs =>
        dsimp only
        simp only [generationHash, pure, Except.pure, Except.toOption, Option.map]
        have hrem : ∀ (n : String) (z : Nat) (r : List MarcField),
            applyRemovalFilters { jp with name := n, zeder_id := z } r
              = applyRemovalFilters jp r := fun _ _ _ => rfl
        congr 1
        rw [hrem name₁ zid₁]
        rw [hrem name₂ zid₂]
        unfold CalculateMarcRecordHash CalcChecksum
        rw [filter_applyRemovalFilters, filter_applyRemovalFilters,
            filter_foldl_insertField _ _ [] List.Pairwise.nil,
            filter_foldl_insertField _ _ [] List.Pairwise.nil]
        simp only [List.filter_append, List.filter_nil]
        rw [bookkeeping_filter_excluded, bookkeeping_filter_excluded]

set_option maxRecDepth 100000 in
set_option maxHeartbeats 1000000 in
/-- Counterexample to C2 as stated: for a metadata record whose date
yields no year, the current year enters the generated 264/936/773 fields
and therefore the checksum — two runs over the same record and
configuration in different years produce different checksums. -/
theorem checksum_depends_on_harvest_year_counterexample :
    generationHash (GenerateMarcRecordFromMetadataRecord diFix mrFixNoDate gpFix
        { currentDate := "2025-06-01", currentYear := "2025" })
      ≠ generationHash (GenerateMarcRecordFromMetadataRecord diFix mrFixNoDate gpFix
        { currentDate := "2026-06-01", currentYear := "2026" }) := by
  have h₁ : generationHash (GenerateMarcRecordFromMetadataRecord diFix mrFixNoDate gpFix
      { currentDate := "2025-06-01", currentYear := "2025" }) = some "df3aacaa78c9ab34" := rfl
  have h₂ : generationHash (GenerateMarcRecordFromMetadataRecord diFix mrFixNoDate gpFix
      { currentDate := "2026-06-01", currentYear := "2026" }) = some "6f19f1e64bdb9d00" := rfl
  rw [h₁, h₂]
  decide

/-- Witness for `checksum_content_invariance`: a dated record hashed in
two different years, under different URLs, journal names and ids. -/
theorem checksum_content_invariance_witness :
    stringToYear mrFixDated.date = some 2020
    ∧ generationHash (GenerateMarcRecordFromMetadataRecord
        { journal := { jpFix with name := "A", zeder_id := 1 }, url := "https://example.org/x" }
        mrFixDated gpFix { currentDate := "2025-06-01", currentYear := "2025" })
      = generationHash (GenerateMarcRecordFromMetadataRecord
        { journal := { jpFix with name := "B", zeder_id := 2 }, url := "https://example.org/y" }
        mrFixDated gpFix { currentDate := "2026-06-01", currentYear := "2026" }) :=
  ⟨by decide,
   checksum_content_invariance mrFixDated jpFix gpFix
     { currentDate := "2025-06-01", currentYear := "2025" }
     { currentDate := "2026-06-01", currentYear := "2026" }
     "https://example.org/x" "https://example.org/y" "A" "B" 1 2 2020 (by decide)⟩
